/-
  Verification of the core algorithms of the evolution-sim repository.

  Shallow embedding conventions:
  * JavaScript numbers are embedded as rationals (ℚ); integer counters as ℕ.
  * `Math.sqrt` is an opaque numeric primitive; every definition that needs it
    takes an explicit parameter `sq : ℚ → ℚ` standing for it.
  * `Math.random()` draws are passed in explicitly, one stream (ℕ → ℚ) or one
    scalar per call site, mirroring the order of calls in the source.
  * Mutable JS arrays/objects used by the genetic operators are modelled with a
    small store (list of genome objects addressed by allocation index), so that
    frame properties ("inputs are not modified") are expressible.
  * The neural network evaluator is an external collaborator (spec §1, §6); it
    is modelled as an opaque function from the sensory input vector to the three
    outputs.
-/
import Mathlib

namespace EvoSim

/-! ### Vector/Math utilities (src/utils/math.ts) -/

structure Vec where
  x : ℚ
  y : ℚ
deriving DecidableEq

def createVector (x y : ℚ) : Vec := ⟨x, y⟩

def addVectors (v1 v2 : Vec) : Vec := ⟨v1.x + v2.x, v1.y + v2.y⟩

def subtractVectors (v1 v2 : Vec) : Vec := ⟨v1.x - v2.x, v1.y - v2.y⟩

def multiplyVector (v : Vec) (s : ℚ) : Vec := ⟨v.x * s, v.y * s⟩

def divideVector (v : Vec) (s : ℚ) : Vec := ⟨v.x / s, v.y / s⟩

/-- `magnitudeVector`, with `sq` standing for `Math.sqrt`. -/
def magnitudeVector (sq : ℚ → ℚ) (v : Vec) : ℚ := sq (v.x * v.x + v.y * v.y)

/-- `normalizeVector`: zero-magnitude vectors normalize to the zero vector. -/
def normalizeVector (sq : ℚ → ℚ) (v : Vec) : Vec :=
  let mag := magnitudeVector sq v
  if mag = 0 then ⟨0, 0⟩ else divideVector v mag

def limitVector (sq : ℚ → ℚ) (v : Vec) (max : ℚ) : Vec :=
  let mag := magnitudeVector sq v
  if mag > max then multiplyVector (normalizeVector sq v) max else v

def distanceBetween (sq : ℚ → ℚ) (v1 v2 : Vec) : ℚ :=
  magnitudeVector sq (subtractVectors v1 v2)

/-! ### Genome (src/evolution/genome.ts) -/

structure Genome where
  weights : List ℚ
  mutationRate : ℚ
deriving DecidableEq

/-- `genome.copy()` (value semantics: copying yields an equal value). -/
def Genome.copy (g : Genome) : Genome := ⟨g.weights, g.mutationRate⟩

/-! ### A small store of genome objects.

JS genomes are mutable heap objects; the genetic operators allocate fresh
genomes and write into them element by element.  We model the heap as a list of
genome values addressed by allocation index: `alloc` appends, writes replace
the value at an index.  Frame claims (inputs unmodified) are statements about
the store. -/

abbrev Store := List Genome

def heapGet (s : Store) (r : ℕ) : Genome := s.getD r ⟨[], 0.05⟩

def heapSet (s : Store) (r : ℕ) (g : Genome) : Store := s.set r g

def alloc (s : Store) (g : Genome) : Store × ℕ := (s ++ [g], s.length)

/-! ### Genetic operators (src/evolution/mutation.ts) -/

inductive CrossoverType where
  | UNIFORM
  | SINGLE_POINT
  | MULTI_POINT
deriving DecidableEq

/-- Operator-level `mutate(genome, rate, amount)`:
`d i` is the per-weight `Math.random()` decision draw, `u i` the perturbation
draw.  Returns the updated store and the reference of the new genome. -/
def mutWeightStep (d u : ℕ → ℚ) (rate amount : ℚ) (ng : ℕ) (st : Store) (i : ℕ) : Store :=
  if d i < rate then
    let obj := heapGet st ng
    heapSet st ng
      { obj with weights := obj.weights.set i (obj.weights.getD i 0 + (u i * 2 - 1) * amount) }
  else st

def mutateOp (d u : ℕ → ℚ) (rate amount : ℚ) (s : Store) (g : ℕ) : Store × ℕ :=
  let (s1, ng) := alloc s (heapGet s g).copy
  let s2 := (List.range (heapGet s1 ng).weights.length).foldl (mutWeightStep d u rate amount ng) s1
  (s2, ng)

/-- `child.weights[i] = src.weights[i]` for every `i` in `[point, length)`,
i.e. the inner overwrite loop of multi-point crossover. -/
def overwriteFrom (cur src : List ℚ) (point : ℕ) : List ℚ :=
  cur.take point ++ src.drop point

/-- One `points.forEach` iteration of MULTI_POINT crossover: overwrite the
child's weights from the currently inactive parent starting at `point`, then
flip the active parent (2 encodes "switch to parent2 next", 1 the converse). -/
def multiPointStep (g1 g2 : Genome) (c : ℕ) (st : Store × ℕ) (point : ℕ) : Store × ℕ :=
  let obj := heapGet st.1 c
  if st.2 = 2 then
    (heapSet st.1 c { obj with weights := overwriteFrom obj.weights g2.weights point }, 1)
  else
    (heapSet st.1 c { obj with weights := overwriteFrom obj.weights g1.weights point }, 2)

/-- `crossover(parent1, parent2, crossoverType)`.
`coins i` are the per-gene draws of UNIFORM, `r0` the first draw of
SINGLE_POINT / MULTI_POINT, `rs i` the point draws of MULTI_POINT.
Throws (returns `none`) when the parents' weight vectors differ in length. -/
def crossoverOp (coins : ℕ → ℚ) (r0 : ℚ) (rs : ℕ → ℚ) (ty : CrossoverType)
    (s : Store) (p1 p2 : ℕ) : Option (Store × ℕ) :=
  let (s1, c) := alloc s ⟨[], 0.05⟩
  let g1 := heapGet s1 p1
  let g2 := heapGet s1 p2
  if g1.weights.length ≠ g2.weights.length then none else
  let length := g1.weights.length
  match ty with
  | CrossoverType.UNIFORM =>
      let ws := (List.range length).map
        (fun i => if coins i < 0.5 then g1.weights.getD i 0 else g2.weights.getD i 0)
      some (heapSet s1 c { heapGet s1 c with weights := ws }, c)
  | CrossoverType.SINGLE_POINT =>
      let crossPoint := (r0 * length).floor.toNat
      let ws := g1.weights.take crossPoint ++ g2.weights.drop crossPoint
      some (heapSet s1 c { heapGet s1 c with weights := ws }, c)
  | CrossoverType.MULTI_POINT =>
      let numPoints := (r0 * 3).floor.toNat + 2
      let points := ((List.range numPoints).map
        (fun i => (rs i * length).floor.toNat)).mergeSort (fun a b => decide (a ≤ b))
      let s2 := heapSet s1 c { heapGet s1 c with weights := g1.weights }
      let res := points.foldl (multiPointStep g1 g2 c) (s2, 2)
      some (res.1, c)

/-- Self-adaptive `mutate(genome)` (src/evolution/genome.ts).
`r10` is the 10%-decision draw, `u` the rate-perturbation draw, `d i` the
per-weight decision draws and `n i` the per-weight Gaussian samples (the
Box-Muller sampler is an external random source, its draws are passed in). -/
def saWeightStep (d n : ℕ → ℚ) (ng : ℕ) (st : Store) (i : ℕ) : Store :=
  let obj := heapGet st ng
  if d i < obj.mutationRate then
    heapSet st ng { obj with weights := obj.weights.set i (obj.weights.getD i 0 + n i * 0.2) }
  else st

def mutateSAOp (r10 u : ℚ) (d n : ℕ → ℚ) (s : Store) (g : ℕ) : Store × ℕ :=
  let (s1, ng) := alloc s (heapGet s g).copy
  let s2 :=
    if r10 < 0.1 then
      let rateChange := (u * 2 - 1) * 0.5 * (heapGet s g).mutationRate
      heapSet s1 ng
        { heapGet s1 ng with
          mutationRate := max 0.001 (min 0.3 ((heapGet s g).mutationRate + rateChange)) }
    else s1
  let s3 := (List.range (heapGet s2 ng).weights.length).foldl (saWeightStep d n ng) s2
  (s3, ng)

/-- Value-level view of operator `crossover`: run on a two-object store. -/
def crossoverV (coins : ℕ → ℚ) (r0 : ℚ) (rs : ℕ → ℚ) (ty : CrossoverType)
    (g1 g2 : Genome) : Option Genome :=
  (crossoverOp coins r0 rs ty [g1, g2] 0 1).map (fun sc => heapGet sc.1 sc.2)

/-- Value-level view of self-adaptive `mutate`: run on a one-object store. -/
def mutateSAV (r10 u : ℚ) (d n : ℕ → ℚ) (g : Genome) : Genome :=
  let sc := mutateSAOp r10 u d n [g] 0
  heapGet sc.1 sc.2

/-- Value-level view of the operator-level `mutate(genome, rate, amount)` from
mutation.ts: run on a one-object store. -/
def mutateV (d u : ℕ → ℚ) (rate amount : ℚ) (g : Genome) : Genome :=
  let sc := mutateOp d u rate amount [g] 0
  heapGet sc.1 sc.2

/-! ### Configuration (src/cfg.ts) -/

structure Config where
  worldWidth : ℚ
  worldHeight : ℚ
  initialAgentCount : ℕ
  initialFoodCount : ℕ
  agentSize : ℚ
  agentMaxSpeed : ℚ
  agentMaxForce : ℚ
  agentMaxEnergy : ℚ
  agentMetabolismRate : ℚ
  agentReproductionEnergy : ℚ
  inputNeurons : ℕ
  hiddenNeurons : List ℕ
  outputNeurons : ℕ
  mutationRate : ℚ
  mutationAmount : ℚ

def config : Config :=
  { worldWidth := 800
    worldHeight := 600
    initialAgentCount := 50
    initialFoodCount := 100
    agentSize := 10
    agentMaxSpeed := 2
    agentMaxForce := 0.1
    agentMaxEnergy := 100
    agentMetabolismRate := 0.1
    agentReproductionEnergy := 70
    inputNeurons := 12
    hiddenNeurons := [16, 12]
    outputNeurons := 3
    mutationRate := 0.05
    mutationAmount := 0.1 }

/-- Expected genome length for the configured architecture: for each layer
pair, `inSize*outSize` weights plus `outSize` biases (Agent constructor). -/
def expectedWeights (cfg : Config) : ℕ :=
  let layerSizes := cfg.inputNeurons :: cfg.hiddenNeurons ++ [cfg.outputNeurons]
  (List.range (layerSizes.length - 1)).foldl
    (fun acc i => acc + layerSizes.getD i 0 * layerSizes.getD (i + 1) 0 + layerSizes.getD (i + 1) 0)
    0

/-! ### Food and Obstacle entities (src/entities/food.ts, obstacle.ts) -/

inductive FoodType where
  | BASIC
  | SUPER
  | POISON
deriving DecidableEq

structure Food where
  position : Vec
  energy : ℚ
  size : ℚ
  isConsumed : Bool
  type : FoodType
deriving DecidableEq

/-- The Food constructor's per-type energy. -/
def foodEnergyOf : FoodType → ℚ
  | FoodType.BASIC => 20
  | FoodType.SUPER => 50
  | FoodType.POISON => -30

/-- The Food constructor's per-type size. -/
def foodSizeOf : FoodType → ℚ
  | FoodType.BASIC => 5
  | FoodType.SUPER => 8
  | FoodType.POISON => 4

def mkFood (position : Vec) (ty : FoodType) : Food :=
  ⟨position, foodEnergyOf ty, foodSizeOf ty, false, ty⟩

structure Obstacle where
  position : Vec
  size : ℚ
deriving DecidableEq

/-! ### Agent (src/entities/agent.ts)

The `brain`/`species`/`simulation` references are external to the agent's
correctness-relevant state: the neural network is an opaque collaborator
passed to `agentUpdate`, and the current generation is passed to `reproduce`. -/

structure Agent where
  position : Vec
  velocity : Vec
  acceleration : Vec
  size : ℚ
  energy : ℚ
  genome : Genome
  age : ℕ
  dead : Bool
  fitness : ℚ
  metabolismMultiplier : ℚ
  id : ℕ
  parentIds : List ℕ
deriving DecidableEq

/-- The Agent constructor, for a provided position and genome.  `rndG` is the
fresh random genome drawn when the provided genome's size mismatches the
architecture. -/
def mkAgent (cfg : Config) (rndG : Genome) (position : Vec) (genome : Genome) : Agent :=
  { position := position
    velocity := ⟨0, 0⟩
    acceleration := ⟨0, 0⟩
    size := cfg.agentSize
    energy := cfg.agentMaxEnergy / 2
    genome := if genome.weights.length ≠ expectedWeights cfg then rndG else genome
    age := 0
    dead := false
    fitness := 0
    metabolismMultiplier := 1
    id := 0
    parentIds := [] }

/-- Strict-min fold of `getSensoryInputs`: the first entity at the strictly
smallest distance, together with that distance (`none` encodes `Infinity`). -/
def closestBy (dist : α → ℚ) (items : List α) : Option (α × ℚ) :=
  items.foldl
    (fun best item =>
      let d := dist item
      match best with
      | none => some (item, d)
      | some b => if d < b.2 then some (item, d) else some b)
    none

/-- `getSensoryInputs(foods, obstacles)`; `rand` is the final `Math.random()`
noise input. -/
def getSensoryInputs (sq : ℚ → ℚ) (cfg : Config) (rand : ℚ) (a : Agent)
    (foods : List Food) (obstacles : List Obstacle) : List ℚ :=
  let base := [a.position.x / cfg.worldWidth, a.position.y / cfg.worldHeight,
    magnitudeVector sq a.velocity / cfg.agentMaxSpeed, a.energy / cfg.agentMaxEnergy]
  let foodInputs :=
    match closestBy (fun f => distanceBetween sq a.position f.position)
        (foods.filter (fun f => ¬f.isConsumed)) with
    | some (f, d) =>
        let dir := normalizeVector sq (subtractVectors f.position a.position)
        [dir.x, dir.y, d / sq (cfg.worldWidth ^ 2 + cfg.worldHeight ^ 2),
          match f.type with
          | FoodType.BASIC => 0.5
          | FoodType.SUPER => 1.0
          | FoodType.POISON => 0.0]
    | none => [0, 0, 1, 0.5]
  let obstacleInputs :=
    match closestBy (fun o => distanceBetween sq a.position o.position) obstacles with
    | some (o, d) =>
        if d < 150 then
          let dir := normalizeVector sq (subtractVectors o.position a.position)
          [dir.x, dir.y, d / 150]
        else [0, 0, 1]
    | none => [0, 0, 1]
  base ++ foodInputs ++ obstacleInputs ++ [rand]

/-- `applyOutputs(outputs)`: sets the acceleration from the three network
outputs. -/
def applyOutputs (sq : ℚ → ℚ) (cfg : Config) (outputs : ℚ × ℚ × ℚ) (a : Agent) : Agent :=
  let forwardForce := outputs.1 * cfg.agentMaxForce
  let forwardVector := normalizeVector sq
    (if a.velocity.x = 0 ∧ a.velocity.y = 0 then ⟨1, 0⟩ else a.velocity)
  let turnForce := (outputs.2.1 * 2 - 1) * cfg.agentMaxForce
  let turnVector : Vec := ⟨-forwardVector.y, forwardVector.x⟩
  let speedMultiplier := outputs.2.2 * 2
  let movementForce := addVectors
    ⟨forwardVector.x * forwardForce, forwardVector.y * forwardForce⟩
    ⟨turnVector.x * turnForce, turnVector.y * turnForce⟩
  { a with acceleration := ⟨movementForce.x * speedMultiplier, movementForce.y * speedMultiplier⟩ }

/-- The sequential boundary wrap of `updatePhysics` for one coordinate:
`if (c < 0) c = w; if (c > w) c = 0;`. -/
def wrapCoord (w c : ℚ) : ℚ :=
  if c < 0 then w else if c > w then 0 else c

/-- The velocity after `updatePhysics` (add acceleration, then limit). -/
def physVelocity (sq : ℚ → ℚ) (cfg : Config) (movementMultiplier : ℚ) (a : Agent) : Vec :=
  limitVector sq (addVectors a.velocity a.acceleration) (cfg.agentMaxSpeed * movementMultiplier)

/-- The position after integration, before boundary wrapping. -/
def integratedPosition (sq : ℚ → ℚ) (cfg : Config) (movementMultiplier : ℚ) (a : Agent) : Vec :=
  addVectors a.position (multiplyVector (physVelocity sq cfg movementMultiplier a) movementMultiplier)

/-- `updatePhysics(movementMultiplier)`. -/
def updatePhysics (sq : ℚ → ℚ) (cfg : Config) (movementMultiplier : ℚ) (a : Agent) : Agent :=
  let pos := integratedPosition sq cfg movementMultiplier a
  { a with
    velocity := physVelocity sq cfg movementMultiplier a
    position := ⟨wrapCoord cfg.worldWidth pos.x, wrapCoord cfg.worldHeight pos.y⟩ }

/-- The broad-phase filter of `checkFoodConsumption` (squared distance against
`(size + food.size + 10)²`). -/
def foodBroadPhase (a : Agent) (f : Food) : Prop :=
  let dx := f.position.x - a.position.x
  let dy := f.position.y - a.position.y
  dx * dx + dy * dy < (a.size + f.size + 10) * (a.size + f.size + 10)

instance (a : Agent) (f : Food) : Decidable (foodBroadPhase a f) := by
  unfold foodBroadPhase; infer_instance

/-- One consumption step: energy gain, poison floor, max cap. -/
def consumeFood (cfg : Config) (a : Agent) (f : Food) : Agent :=
  let e1 := a.energy + f.energy
  let e2 := if e1 < 1 ∧ f.type = FoodType.POISON then 1 else e1
  let e3 := if e2 > cfg.agentMaxEnergy then cfg.agentMaxEnergy else e2
  { a with energy := e3 }

/-- `checkFoodConsumption(foods)`: the source filters the food list by the
broad phase and then walks the filtered list with the precise check, marking
consumed items and updating the agent's energy.  Here the two passes are fused
into one order-preserving walk over the full list (the agent's position is not
modified by consumption, so the conditions agree with the two-pass original).
Returns the updated agent and the food list with consumed items flagged. -/
def checkFoodConsumption (sq : ℚ → ℚ) (cfg : Config) (a : Agent) :
    List Food → Agent × List Food
  | [] => (a, [])
  | f :: rest =>
      if ¬f.isConsumed ∧ foodBroadPhase a f ∧
          distanceBetween sq a.position f.position < a.size + f.size then
        let a' := consumeFood cfg a f
        let (a'', rest') := checkFoodConsumption sq cfg a' rest
        (a'', { f with isConsumed := true } :: rest')
      else
        let (a'', rest') := checkFoodConsumption sq cfg a rest
        (a'', f :: rest')

/-- One obstacle-collision step of `checkObstacleCollisions`. -/
def collideStep (sq : ℚ → ℚ) (a : Agent) (ob : Obstacle) : Agent :=
  let distance := distanceBetween sq a.position ob.position
  if distance < a.size + ob.size then
    let awayVector := normalizeVector sq (subtractVectors a.position ob.position)
    let overlapDistance := a.size + ob.size - distance
    let position' := addVectors a.position (multiplyVector awayVector (overlapDistance * 1.1))
    let dotProduct := a.velocity.x * awayVector.x + a.velocity.y * awayVector.y
    let velocity' := subtractVectors a.velocity (multiplyVector awayVector (2 * dotProduct))
    { a with position := position', velocity := velocity', energy := a.energy - 5 }
  else a

def checkObstacleCollisions (sq : ℚ → ℚ) (a : Agent) (obstacles : List Obstacle) : Agent :=
  obstacles.foldl (collideStep sq) a

/-- The agent after sensing, neural decision and physics (the movement part of
a full update); `brain` is the opaque neural evaluator. -/
def postMoveAgent (sq : ℚ → ℚ) (cfg : Config) (brain : List ℚ → ℚ × ℚ × ℚ) (rand : ℚ)
    (a : Agent) (foods : List Food) (obstacles : List Obstacle)
    (movementMultiplier : ℚ) : Agent :=
  let inputs := getSensoryInputs sq cfg rand a foods obstacles
  updatePhysics sq cfg movementMultiplier (applyOutputs sq cfg (brain inputs) a)

/-- The start of `Agent.update`: age increment and metabolism drain. -/
def metabolizedAgent (cfg : Config) (a : Agent) : Agent :=
  { a with
    age := a.age + 1
    energy := a.energy - cfg.agentMetabolismRate * a.metabolismMultiplier }

/-- `Agent.update(foods, obstacles, movementMultiplier)`: a full-update tick.
Returns the updated agent and the food list (with consumed items flagged). -/
def agentUpdate (sq : ℚ → ℚ) (cfg : Config) (brain : List ℚ → ℚ × ℚ × ℚ) (rand : ℚ)
    (a : Agent) (foods : List Food) (obstacles : List Obstacle)
    (movementMultiplier : ℚ) : Agent × List Food :=
  let a1 := metabolizedAgent cfg a
  if a1.energy ≤ 0 then ({ a1 with dead := true }, foods)
  else
    let a2 := postMoveAgent sq cfg brain rand a1 foods obstacles movementMultiplier
    let (a3, foods') := checkFoodConsumption sq cfg a2 foods
    let a4 := checkObstacleCollisions sq a3 obstacles
    ({ a4 with fitness := (a4.age : ℚ) + a4.energy }, foods')

/-! ### Per-tick batching window (Simulation.update, src/core/sim.ts)

When more than 20 agents are alive, only the agents whose index lies in
`[startIdx, endIdx)` receive the full update in a tick, where
`startIdx = (tickCount * 10) % agentCount` and
`endIdx = min(startIdx + 10, agentCount)`. -/

def batchWindow (agentCount tick : ℕ) : ℕ × ℕ :=
  let startIdx := tick * 10 % agentCount
  (startIdx, min (startIdx + 10) agentCount)

/-- Whether agent index `i` receives a full update at tick `tick`. -/
def windowContains (agentCount tick i : ℕ) : Bool :=
  decide ((batchWindow agentCount tick).1 ≤ i) && decide (i < (batchWindow agentCount tick).2)

/-! ### Generation transition (Simulation.startNewGeneration, src/core/sim.ts) -/

/-- `[...this.agents].sort((a, b) => b.fitness - a.fitness)`. -/
def sortByFitnessDesc (agents : List Agent) : List Agent :=
  agents.mergeSort (fun a b => decide (b.fitness ≤ a.fitness))

/-- The survivors of a non-extinct generation: the top `ceil(n/4)` by fitness. -/
def survivorsOf (agents : List Agent) : List Agent :=
  (sortByFitnessDesc agents).take ((agents.length + 3) / 4)

/-! ### Species and SpeciesManager (src/evolution/species.ts)

The `name` and `color` fields are rendering metadata (excluded collaborators)
and are omitted. -/

structure Species where
  id : ℕ
  members : List ℕ
  representative : Genome
  creationGeneration : ℕ
  lastImprovedGeneration : ℕ
  bestFitness : ℚ
deriving DecidableEq

/-- The Species constructor (representative is a copy of the founder genome). -/
def mkSpecies (id : ℕ) (representative : Genome) (creationGeneration : ℕ)
    (firstMemberId : ℕ) : Species :=
  { id := id
    members := [firstMemberId]
    representative := representative.copy
    creationGeneration := creationGeneration
    lastImprovedGeneration := creationGeneration
    bestFitness := 0 }

def Species.addMember (s : Species) (agentId : ℕ) : Species :=
  if agentId ∈ s.members then s else { s with members := s.members ++ [agentId] }

/-- `geneticDistance(genomeA, genomeB)`: Euclidean distance of the weight
vectors; throws (`none`) on a length mismatch. -/
def geneticDistance (sq : ℚ → ℚ) (genomeA genomeB : Genome) : Option ℚ :=
  if genomeA.weights.length ≠ genomeB.weights.length then none
  else some (sq (((genomeA.weights.zip genomeB.weights).map
    (fun p => (p.1 - p.2) * (p.1 - p.2))).sum))

structure SpeciesManager where
  species : List Species
  nextSpeciesId : ℕ
  distanceThreshold : ℚ
  currentGeneration : ℕ

def mkSpeciesManager : SpeciesManager :=
  { species := [], nextSpeciesId := 1, distanceThreshold := 4, currentGeneration := 1 }

/-- The scan loop of `assignSpecies`: find the first species whose
representative is within the threshold, add the agent to it, and return the
updated species list.  `some none` means no species matched; `none` means
`geneticDistance` threw. -/
def assignScan (sq : ℚ → ℚ) (threshold : ℚ) (genome : Genome) (agentId : ℕ) :
    List Species → Option (Option (Species × List Species))
  | [] => some none
  | s :: rest =>
      match geneticDistance sq genome s.representative with
      | none => none
      | some d =>
          if d < threshold then
            let s' := s.addMember agentId
            some (some (s', s' :: rest))
          else
            match assignScan sq threshold genome agentId rest with
            | none => none
            | some none => some none
            | some (some (t, rest')) => some (some (t, s :: rest'))

/-- `SpeciesManager.assignSpecies(genome, agentId)`. -/
def assignSpecies (sq : ℚ → ℚ) (mgr : SpeciesManager) (genome : Genome) (agentId : ℕ) :
    Option (Species × SpeciesManager) :=
  match assignScan sq mgr.distanceThreshold genome agentId mgr.species with
  | none => none
  | some (some (s, species')) => some (s, { mgr with species := species' })
  | some none =>
      let s := mkSpecies mgr.nextSpeciesId genome mgr.currentGeneration agentId
      some (s, { mgr with
        species := mgr.species ++ [s]
        nextSpeciesId := mgr.nextSpeciesId + 1 })

/-! ### LineageTracker (src/evolution/lineage.ts)

The `Map<number, AgentAncestry>` is modelled as an insertion-ordered
association list: `mapSet` replaces in place when the key exists, otherwise
appends. -/

structure AgentAncestry where
  id : ℕ
  parentIds : List ℕ
  generation : ℕ
  speciesId : ℕ
  birthTick : ℕ
  deathTick : Option ℕ
  maxFitness : ℚ
deriving DecidableEq

abbrev AncestryMap := List (ℕ × AgentAncestry)

def mapSet (m : AncestryMap) (k : ℕ) (v : AgentAncestry) : AncestryMap :=
  if (m.lookup k).isSome then
    m.map (fun p => if p.1 = k then (k, v) else p)
  else m ++ [(k, v)]

structure LineageTracker where
  ancestryRecords : AncestryMap
  nextAgentId : ℕ
  currentGeneration : ℕ
  currentTick : ℕ

def mkLineageTracker : LineageTracker :=
  { ancestryRecords := [], nextAgentId := 1, currentGeneration := 1, currentTick := 0 }

/-- `registerBirth(parentIds, speciesId)`: allocates the next id and stores a
fresh record; returns the id and the updated tracker. -/
def registerBirth (t : LineageTracker) (parentIds : List ℕ) (speciesId : ℕ) :
    ℕ × LineageTracker :=
  let id := t.nextAgentId
  (id, { t with
    nextAgentId := t.nextAgentId + 1
    ancestryRecords := mapSet t.ancestryRecords id
      { id := id
        parentIds := parentIds
        generation := t.currentGeneration
        speciesId := speciesId
        birthTick := t.currentTick
        deathTick := none
        maxFitness := 0 } })

/-- `registerDeath(agentId, finalFitness)`: no-op when the id is unknown. -/
def registerDeath (t : LineageTracker) (agentId : ℕ) (finalFitness : ℚ) : LineageTracker :=
  match t.ancestryRecords.lookup agentId with
  | none => t
  | some r =>
      { t with ancestryRecords := (mapSet t.ancestryRecords agentId
          { r with
            deathTick := some t.currentTick
            maxFitness := max r.maxFitness finalFitness }) }

/-- `updateFitness(agentId, fitness)`: no-op when the id is unknown. -/
def updateFitness (t : LineageTracker) (agentId : ℕ) (fitness : ℚ) : LineageTracker :=
  match t.ancestryRecords.lookup agentId with
  | none => t
  | some r =>
      { t with ancestryRecords := (mapSet t.ancestryRecords agentId
          { r with maxFitness := max r.maxFitness fitness }) }

/-- The breadth-first walk of `getAncestors`, with explicit fuel: one unit of
fuel per dequeued id.  Returns the collected ancestor records and the queue
left unprocessed when the fuel ran out (the source's unbounded `while` loop
corresponds to the limit where the leftover queue is empty). -/
def bfsAncestors (m : AncestryMap) : List ℕ → ℕ → List AgentAncestry × List ℕ
  | queue, 0 => ([], queue)
  | [], _ + 1 => ([], [])
  | parentId :: rest, fuel + 1 =>
      match m.lookup parentId with
      | none => bfsAncestors m rest fuel
      | some parentRecord =>
          let (ancestors, leftover) := bfsAncestors m (rest ++ parentRecord.parentIds) fuel
          (parentRecord :: ancestors, leftover)

/-- `getAncestors(agentId)` with explicit fuel for the BFS loop. -/
def getAncestorsFuel (t : LineageTracker) (agentId : ℕ) (fuel : ℕ) : List AgentAncestry :=
  match t.ancestryRecords.lookup agentId with
  | none => []
  | some record => (bfsAncestors t.ancestryRecords record.parentIds fuel).1

/-- Number of BFS dequeue steps needed to exhaust id `j` and all its ancestor
chains: `1 +` the step counts of the parents recorded for `j`.  The filter to
strictly smaller parents makes the definition total; under the DAG invariant
(every recorded parent id is smaller than its child's key) it coincides with
the unfiltered sum. -/
def pathCount (m : AncestryMap) : ℕ → ℕ
  | j =>
      match m.lookup j with
      | none => 1
      | some r => 1 + (((r.parentIds.filter (fun p => p < j)).attach).map
          (fun q => pathCount m q.1)).sum
termination_by j => j
decreasing_by
  rename_i hq
  have := q.2
  simp [List.mem_filter] at this
  omega

/-- Total fuel needed to drain a BFS queue. -/
def queueFuel (m : AncestryMap) (queue : List ℕ) : ℕ :=
  (queue.map (pathCount m)).sum

/-! ### Reproduction (Agent.reproduce, src/entities/agent.ts) -/

/-- `canReproduce()`: energy strictly above the configured threshold. -/
def canReproduce (cfg : Config) (a : Agent) : Bool :=
  decide (a.energy > cfg.agentReproductionEnergy)

/-- Crossover-strategy selection by the current generation number. -/
def crossoverTypeFor (generation : ℕ) : CrossoverType :=
  if generation < 5 then CrossoverType.UNIFORM
  else if generation < 15 then CrossoverType.SINGLE_POINT
  else CrossoverType.MULTI_POINT

/-- All random draws consumed by one `reproduce` call, in source order:
crossover draws, the operator-level mutation draws (`mutD i` the per-weight
decision, `mutU i` the perturbation), the child position offsets, and the
random genome the Agent constructor would fall back to on an architecture
mismatch. -/
structure ReproDraws where
  coins : ℕ → ℚ
  cross0 : ℚ
  crossRs : ℕ → ℚ
  mutD : ℕ → ℚ
  mutU : ℕ → ℚ
  offX : ℚ
  offY : ℚ
  rndGenome : Genome

/-- The child genome of `reproduce` before the final mutation step:
crossover (with the generation-selected strategy) and mutation-rate averaging
when the partner exists and can reproduce, a plain copy otherwise.
`none` models the crossover length-mismatch throw. -/
def reproPreGenome (cfg : Config) (generation : ℕ) (dr : ReproDraws)
    (self : Agent) (partner : Option Agent) : Option Genome :=
  match partner with
  | some p =>
      if canReproduce cfg p then
        match crossoverV dr.coins dr.cross0 dr.crossRs (crossoverTypeFor generation)
            self.genome p.genome with
        | none => none
        | some cg =>
            some { cg with
              mutationRate := (self.genome.mutationRate + p.genome.mutationRate) / 2 }
      else some self.genome.copy
  | none => some self.genome.copy

structure ReproResult where
  parent : Agent
  partner : Option Agent
  child : Agent

/-- `Agent.reproduce(partner)`.  The final mutation step is the call
`mutate(childGenome)` to the operator-level mutate imported from mutation.ts,
with the config-default rate and amount. -/
def reproduce (cfg : Config) (generation : ℕ) (dr : ReproDraws)
    (self : Agent) (partner : Option Agent) : Option ReproResult :=
  let self1 := { self with energy := self.energy / 2 }
  let partner1 := partner.map
    (fun p => if canReproduce cfg p then { p with energy := p.energy / 2 } else p)
  match reproPreGenome cfg generation dr self partner with
  | none => none
  | some pre =>
      let childGenome := mutateV dr.mutD dr.mutU cfg.mutationRate cfg.mutationAmount pre
      let childPosition := addVectors self.position ⟨dr.offX * 20 - 10, dr.offY * 20 - 10⟩
      let childAgent := mkAgent cfg dr.rndGenome childPosition childGenome
      let childAgent := { childAgent with
        parentIds := match partner with
          | some p => [self.id, p.id]
          | none => [self.id] }
      some { parent := self1, partner := partner1, child := childAgent }

/-! ### Generation transition fill loop (Simulation.startNewGeneration)

The `while (newAgents.length < config.initialAgentCount)` loop pushes
survivors' offspring.  Since `newAgents` holds references to the survivor
objects and `parent.reproduce(partner)` mutates the parent's (and an eligible
partner's) energy in place, the loop state carries the current survivor values
next to the accumulated children; the final roster is survivors ++ children. -/

/-- The random draws consumed by the fill loop, one set per iteration:
`parentSel` the draw behind `Math.floor(Math.random() * survivors.length)`,
`partnerGate` the 0.7-probability draw, `partnerSel` the index at which the
do-while rejection loop terminates, `repro` the draws of the `reproduce` call
and `childId` the id allocated by the lineage tracker's `registerBirth`. -/
structure GenDraws where
  parentSel : ℕ → ℚ
  partnerGate : ℕ → ℚ
  partnerSel : ℕ → ℕ
  repro : ℕ → ReproDraws
  childId : ℕ → ℕ

/-- Inert placeholder returned by out-of-range indexing; the source's
`Math.floor(Math.random() * survivors.length)` and the do-while loop always
produce in-range indices, so it is never read under the stated draw
hypotheses. -/
def dfltAgent : Agent :=
  ⟨⟨0, 0⟩, ⟨0, 0⟩, ⟨0, 0⟩, 0, 0, ⟨[], 0.05⟩, 0, false, 0, 1, 0, []⟩

/-- One generation's offspring-filling loop.  `none` models the exception a
crossover length mismatch would raise. -/
def fillLoop (cfg : Config) (gen : ℕ) (dr : GenDraws) :
    List Agent → List Agent → ℕ → Option (List Agent × List Agent)
  | survivors, children, k =>
    if _h : survivors.length + children.length < cfg.initialAgentCount then
      let parentIndex := (dr.parentSel k * survivors.length).floor.toNat
      let parent := survivors.getD parentIndex dfltAgent
      let usePartner := decide (dr.partnerGate k < 0.7) && decide (survivors.length > 1)
      let partnerOpt := if usePartner then
          some (survivors.getD (dr.partnerSel k) dfltAgent)
        else none
      match reproduce cfg gen (dr.repro k) parent partnerOpt with
      | none => none
      | some res =>
          let survivors1 := survivors.set parentIndex res.parent
          let survivors2 :=
            if usePartner then
              match res.partner with
              | some p' => survivors1.set (dr.partnerSel k) p'
              | none => survivors1
            else survivors1
          let child := { res.child with id := dr.childId k }
          fillLoop cfg gen dr survivors2 (children ++ [child]) (k + 1)
    else some (survivors, children)
termination_by survivors children _ => cfg.initialAgentCount - (survivors.length + children.length)
decreasing_by
  simp only [List.length_append, List.length_cons, List.length_nil]
  split <;> try split
  all_goals (simp only [List.length_set]; omega)

/-- The non-extinction branch of `startNewGeneration`: keep the survivors,
then fill up to the configured initial population size with offspring; the
new roster is the (possibly energy-mutated) survivors followed by the
children. -/
def newGenerationRoster (cfg : Config) (gen : ℕ) (dr : GenDraws)
    (agents : List Agent) : Option (List Agent) :=
  (fillLoop cfg gen dr (survivorsOf agents) [] 0).map (fun sc => sc.1 ++ sc.2)

/-- Agents equal in every field except possibly `energy` (the only survivor
field `reproduce` mutates during the fill loop). -/
def eqExceptEnergy (a b : Agent) : Prop :=
  a.position = b.position ∧ a.velocity = b.velocity ∧ a.acceleration = b.acceleration ∧
  a.size = b.size ∧ a.genome = b.genome ∧ a.age = b.age ∧ a.dead = b.dead ∧
  a.fitness = b.fitness ∧ a.metabolismMultiplier = b.metabolismMultiplier ∧
  a.id = b.id ∧ a.parentIds = b.parentIds

/-- One full set of draws of a self-adaptive mutation call (for iterating). -/
structure MutDraws where
  r10 : ℚ
  u : ℚ
  d : ℕ → ℚ
  n : ℕ → ℚ

/-- A finite sequence of self-adaptive mutations. -/
def mutateSeq (g : Genome) (l : List MutDraws) : Genome :=
  l.foldl (fun g m => mutateSAV m.r10 m.u m.d m.n g) g

/-! ### Concrete inputs used by the counterexamples and witnesses -/

/-- A concrete stand-in for `Math.sqrt`, correct on every perfect square the
counterexample evaluations reach. -/
def mySqrt (q : ℚ) : ℚ :=
  if q = 0 then 0 else if q = 1 then 1 else if q = 4 then 2 else if q = 25 then 5 else 0

/-- A concrete neural evaluator: thrust 0, neutral turn, speed multiplier 1. -/
def myBrain (_ : List ℚ) : ℚ × ℚ × ℚ := (0, 1/2, 1/2)

/-- Agent used in the toroidal-wrap counterexample: about to step from
`x = 798` exactly onto `x = worldWidth`. -/
def wrapCexAgent : Agent :=
  { position := ⟨798, 300⟩
    velocity := ⟨2, 0⟩
    acceleration := ⟨0, 0⟩
    size := 10
    energy := 50
    genome := ⟨[], 0.05⟩
    age := 0
    dead := false
    fitness := 0
    metabolismMultiplier := 1
    id := 1
    parentIds := [] }

/-- Agent used in the metabolism counterexample: low energy, standing still,
overlapping an obstacle. -/
def collideCexAgent : Agent :=
  { position := ⟨100, 100⟩
    velocity := ⟨0, 0⟩
    acceleration := ⟨0, 0⟩
    size := 10
    energy := 4.5
    genome := ⟨[], 0.05⟩
    age := 0
    dead := false
    fitness := 0
    metabolismMultiplier := 1
    id := 2
    parentIds := [] }

def collideCexObstacle : Obstacle := ⟨⟨97, 96⟩, 30⟩

/-- Reproduction draws that leave the genome unchanged through mutation
(every per-weight decision draw is 1, above any mutation rate). -/
def quietDraws : ReproDraws :=
  { coins := fun _ => 0
    cross0 := 0
    crossRs := fun _ => 0
    mutD := fun _ => 1
    mutU := fun _ => 0
    offX := 0
    offY := 0
    rndGenome := ⟨[], 0.05⟩ }

/-- Invoking agent of the reproduction counterexample. -/
def reproCexSelf : Agent :=
  { position := ⟨10, 10⟩
    velocity := ⟨0, 0⟩
    acceleration := ⟨0, 0⟩
    size := 10
    energy := 90
    genome := ⟨[1, 1, 1], 0.2⟩
    age := 0
    dead := false
    fitness := 0
    metabolismMultiplier := 1
    id := 3
    parentIds := [] }

/-- A configuration with a minimal network architecture (genome length 2),
used to instantiate general theorems on small concrete genomes. -/
def testConfig : Config :=
  { config with inputNeurons := 1, hiddenNeurons := [], outputNeurons := 1 }

/-- Invoking agent of the reproduction witness (genome sized for
`testConfig`). -/
def reproWitSelf : Agent :=
  { position := ⟨10, 10⟩
    velocity := ⟨0, 0⟩
    acceleration := ⟨0, 0⟩
    size := 10
    energy := 90
    genome := ⟨[1, 1], 0.2⟩
    age := 0
    dead := false
    fitness := 0
    metabolismMultiplier := 1
    id := 5
    parentIds := [] }

/-- Eligible partner of the reproduction witness (energy 80 > 70). -/
def reproWitPartner : Agent :=
  { position := ⟨20, 20⟩
    velocity := ⟨0, 0⟩
    acceleration := ⟨0, 0⟩
    size := 10
    energy := 80
    genome := ⟨[0, 0], 0.1⟩
    age := 0
    dead := false
    fitness := 0
    metabolismMultiplier := 1
    id := 6
    parentIds := [] }

/-- Provided partner whose energy (50) is below the reproduction threshold
(70): it cannot reproduce. -/
def reproCexPartner : Agent :=
  { position := ⟨20, 20⟩
    velocity := ⟨0, 0⟩
    acceleration := ⟨0, 0⟩
    size := 10
    energy := 50
    genome := ⟨[0, 0, 0], 0.1⟩
    age := 0
    dead := false
    fitness := 0
    metabolismMultiplier := 1
    id := 4
    parentIds := [] }

/-- A configuration with the minimal architecture and a 2-agent target
population, used for the concrete generation transition. -/
def genCexConfig : Config := { testConfig with initialAgentCount := 2 }

/-- The single survivor of the concrete generation transition: 80 energy,
genome sized for `testConfig`. -/
def genCexAgent : Agent :=
  { position := ⟨30, 30⟩
    velocity := ⟨0, 0⟩
    acceleration := ⟨0, 0⟩
    size := 10
    energy := 80
    genome := ⟨[1, 1], 0.2⟩
    age := 0
    dead := false
    fitness := 80
    metabolismMultiplier := 1
    id := 7
    parentIds := [] }

def genCexRoster : List Agent := [genCexAgent]

/-- Fill-loop draws: always select index 0 as parent, never take a partner,
reproduce quietly, allocate child ids from 100. -/
def genCexDraws : GenDraws :=
  { parentSel := fun _ => 0
    partnerGate := fun _ => 1
    partnerSel := fun _ => 1
    repro := fun _ => quietDraws
    childId := fun k => 100 + k }

/-- Species at distance 5 (≥ 4) from `witGenome` under `mySqrt`. -/
def witSpecies1 : Species :=
  { id := 1
    members := [7]
    representative := ⟨[5, 0], 0.05⟩
    creationGeneration := 1
    lastImprovedGeneration := 1
    bestFitness := 0 }

/-- Species at distance 1 (< 4) from `witGenome` under `mySqrt`. -/
def witSpecies2 : Species :=
  { id := 2
    members := [8]
    representative := ⟨[1, 0], 0.05⟩
    creationGeneration := 1
    lastImprovedGeneration := 1
    bestFitness := 0 }

def witManager : SpeciesManager :=
  { species := [witSpecies1, witSpecies2]
    nextSpeciesId := 3
    distanceThreshold := 4
    currentGeneration := 2 }

def witGenome : Genome := ⟨[0, 0], 0.05⟩

/-- A concrete ancestry ledger satisfying the DAG invariant. -/
def witTracker : LineageTracker :=
  { ancestryRecords :=
      [(1, ⟨1, [], 1, 0, 0, none, 0⟩),
       (2, ⟨2, [1], 1, 0, 0, none, 0⟩),
       (3, ⟨3, [1, 2], 2, 0, 5, none, 0⟩)]
    nextAgentId := 4
    currentGeneration := 2
    currentTick := 10 }

/-- A concrete two-genome store for the frame-property witness. -/
def witStore : Store := [⟨[1, 2], 0.1⟩, ⟨[3, 4], 0.2⟩]

/-! ## Helper lemmas about the genome store -/

theorem heapGet_append_lt (s : Store) (x : Genome) (r : ℕ) (h : r < s.length) :
    heapGet (s ++ [x]) r = heapGet s r := by
  simp [heapGet, List.getD_eq_getElem?_getD, List.getElem?_append, h]

theorem heapGet_heapSet_ne (s : Store) (c r : ℕ) (v : Genome) (h : r ≠ c) :
    heapGet (heapSet s c v) r = heapGet s r := by
  simp [heapGet, heapSet, List.getD_eq_getElem?_getD, List.getElem?_set, Ne.symm h]

theorem heapGet_heapSet_self (s : Store) (c : ℕ) (v : Genome) (h : c < s.length) :
    heapGet (heapSet s c v) c = v := by
  simp [heapGet, heapSet, List.getD_eq_getElem?_getD, List.getElem?_set, h]

/-! ## Claim C2 — toroidal position wrap -/

/-- Claim C2 counterexample: with the concrete agent stepping from `x = 798`
with velocity `(2, 0)`, the integrated position is exactly `x = worldWidth`,
and the wrap leaves it at `worldWidth` instead of mapping it to `0`. -/
theorem C2_toroidal_wrap_cex :
    (updatePhysics mySqrt config 1 wrapCexAgent).position.x = config.worldWidth ∧
    (updatePhysics mySqrt config 1 wrapCexAgent).position.x ≠ 0 := by
  norm_num [updatePhysics, integratedPosition, physVelocity, limitVector, magnitudeVector,
    mySqrt, normalizeVector, addVectors, multiplyVector, wrapCoord, config, wrapCexAgent]

/-- Claim C2, amended: after physics integration a coordinate that is any
negative value wraps to the world extent, a coordinate strictly greater than
the world extent wraps to 0, and a coordinate exactly equal to the world
extent is left unchanged (it does not wrap to 0). -/
theorem C2_toroidal_wrap (sq : ℚ → ℚ) (cfg : Config) (mult : ℚ) (a : Agent)
    (hw : 0 ≤ cfg.worldWidth) (hh : 0 ≤ cfg.worldHeight) :
    ((integratedPosition sq cfg mult a).x < 0 →
      (updatePhysics sq cfg mult a).position.x = cfg.worldWidth) ∧
    (cfg.worldWidth < (integratedPosition sq cfg mult a).x →
      (updatePhysics sq cfg mult a).position.x = 0) ∧
    ((integratedPosition sq cfg mult a).x = cfg.worldWidth →
      (updatePhysics sq cfg mult a).position.x = cfg.worldWidth) ∧
    ((integratedPosition sq cfg mult a).y < 0 →
      (updatePhysics sq cfg mult a).position.y = cfg.worldHeight) ∧
    (cfg.worldHeight < (integratedPosition sq cfg mult a).y →
      (updatePhysics sq cfg mult a).position.y = 0) ∧
    ((integratedPosition sq cfg mult a).y = cfg.worldHeight →
      (updatePhysics sq cfg mult a).position.y = cfg.worldHeight) := by
  simp only [updatePhysics, wrapCoord]
  refine ⟨?_, ?_, ?_, ?_, ?_, ?_⟩ <;> intro h
  · rw [if_pos h]
  · rw [if_neg (by linarith), if_pos h]
  · rw [h, if_neg (by linarith), if_neg (by linarith)]
  · rw [if_pos h]
  · rw [if_neg (by linarith), if_pos h]
  · rw [h, if_neg (by linarith), if_neg (by linarith)]

/-- Witness for the amended claim C2, at the concrete boundary-hitting
agent. -/
theorem C2_toroidal_wrap_witness :
    (integratedPosition mySqrt config 1 wrapCexAgent).x = config.worldWidth ∧
    (updatePhysics mySqrt config 1 wrapCexAgent).position.x = config.worldWidth :=
  ⟨by norm_num [integratedPosition, physVelocity, limitVector, magnitudeVector, mySqrt,
      normalizeVector, addVectors, multiplyVector, config, wrapCexAgent],
    (C2_toroidal_wrap mySqrt config 1 wrapCexAgent (by norm_num [config])
      (by norm_num [config])).2.2.1
      (by norm_num [integratedPosition, physVelocity, limitVector, magnitudeVector, mySqrt,
        normalizeVector, addVectors, multiplyVector, config, wrapCexAgent])⟩

/-! ## Claim C9 — LineageTracker tolerates unknown ids -/

/-- Claim C9: `registerDeath` and `updateFitness` on an id with no record
leave the tracker unchanged, and `getAncestors` of an unknown id returns the
empty list (for any fuel). -/
theorem C9_lineage_unknown_id (t : LineageTracker) (agentId : ℕ) (f fit : ℚ) (fuel : ℕ)
    (h : t.ancestryRecords.lookup agentId = none) :
    registerDeath t agentId f = t ∧ updateFitness t agentId fit = t ∧
    getAncestorsFuel t agentId fuel = [] := by
  unfold registerDeath updateFitness getAncestorsFuel
  rw [h]
  exact ⟨rfl, rfl, rfl⟩

/-- Witness for claim C9 at a concrete tracker and unknown id. -/
theorem C9_lineage_unknown_id_witness :
    witTracker.ancestryRecords.lookup 9 = none ∧
    (registerDeath witTracker 9 1 = witTracker ∧ updateFitness witTracker 9 2 = witTracker ∧
      getAncestorsFuel witTracker 9 10 = []) :=
  ⟨by decide, C9_lineage_unknown_id witTracker 9 1 2 10 (by decide)⟩

/-! ## Claim C1 — batch fairness -/

/-- Claim C1 counterexample: with 25 agents (> 20), agent index 0 receives no
full update during the `ceil(25/10) = 3` consecutive ticks 1, 2, 3. -/
theorem C1_batch_fairness_cex :
    ((List.range 3).all (fun k => !(windowContains 25 (1 + k) 0))) = true ∧
    (25 + 9) / 10 = 3 ∧ 20 < 25 := by
  decide

/-- Claim C1, amended: with the update window of tick `t` being
`[(t*10) mod N, min((t*10) mod N + 10, N))`, every agent index `i < N`
receives a full update at least once in every run of `N / gcd(10, N)`
consecutive ticks (this bound equals `ceil(N/10)` exactly when `10 ∣ N`; in
general `ceil(N/10)` consecutive ticks are not enough). -/
theorem C1_batch_fairness (N t i : ℕ) (hN : 20 < N) (hi : i < N) :
    ∃ k, k < N / Nat.gcd 10 N ∧ windowContains N (t + k) i = true := by
  have hg10 : Nat.gcd 10 N ∣ 10 := Nat.gcd_dvd_left 10 N
  have hgN : Nat.gcd 10 N ∣ N := Nat.gcd_dvd_right 10 N
  have hg0 : 0 < Nat.gcd 10 N := Nat.gcd_pos_of_pos_left N (by norm_num)
  have hN0 : 0 < N := by omega
  have hgb : Nat.gcd 10 N * (N / Nat.gcd 10 N) = N := Nat.mul_div_cancel' hgN
  have hbg : (N / Nat.gcd 10 N) * Nat.gcd 10 N = N := by rw [Nat.mul_comm]; exact hgb
  have hb0 : 0 < N / Nat.gcd 10 N := by
    rcases Nat.eq_zero_or_pos (N / Nat.gcd 10 N) with hb | hb
    · rw [hb, Nat.mul_zero] at hgb; omega
    · exact hb
  -- the window starts of `N / gcd(10, N)` consecutive ticks are pairwise distinct
  have hinj : ∀ k1 ∈ Finset.range (N / Nat.gcd 10 N), ∀ k2 ∈ Finset.range (N / Nat.gcd 10 N),
      (t + k1) * 10 % N = (t + k2) * 10 % N → k1 = k2 := by
    intro k1 h1 k2 h2 heq
    have hmod : 10 * (t + k1) ≡ 10 * (t + k2) [MOD N] := by
      show 10 * (t + k1) % N = 10 * (t + k2) % N
      rw [Nat.mul_comm 10 (t + k1), Nat.mul_comm 10 (t + k2)]
      exact heq
    have hcan := Nat.ModEq.cancel_left_div_gcd hN0 hmod
    rw [Nat.gcd_comm N 10] at hcan
    have hk : k1 ≡ k2 [MOD N / Nat.gcd 10 N] :=
      Nat.ModEq.add_left_cancel (Nat.ModEq.refl t) hcan
    have hk' : k1 % (N / Nat.gcd 10 N) = k2 % (N / Nat.gcd 10 N) := hk
    rw [Nat.mod_eq_of_lt (Finset.mem_range.mp h1),
      Nat.mod_eq_of_lt (Finset.mem_range.mp h2)] at hk'
    exact hk'
  have hcardT :
      ((Finset.range (N / Nat.gcd 10 N)).image (fun k => (t + k) * 10 % N)).card =
        N / Nat.gcd 10 N := by
    rw [Finset.card_image_of_injOn, Finset.card_range]
    intro k1 h1 k2 h2 heq
    exact hinj k1 (by simpa using h1) k2 (by simpa using h2) heq
  -- every window start is a multiple of gcd(10, N) below N
  have hsubset :
      (Finset.range (N / Nat.gcd 10 N)).image (fun k => (t + k) * 10 % N) ⊆
        (Finset.range (N / Nat.gcd 10 N)).image (fun j => Nat.gcd 10 N * j) := by
    intro x hx
    simp only [Finset.mem_image, Finset.mem_range] at hx ⊢
    obtain ⟨k, _, rfl⟩ := hx
    have hdvd : Nat.gcd 10 N ∣ (t + k) * 10 % N :=
      (Nat.dvd_mod_iff hgN).mpr (Dvd.dvd.mul_left hg10 (t + k))
    have hlt : (t + k) * 10 % N < N := Nat.mod_lt _ hN0
    refine ⟨(t + k) * 10 % N / Nat.gcd 10 N, ?_, Nat.mul_div_cancel' hdvd⟩
    exact (Nat.div_lt_iff_lt_mul hg0).mpr (by rw [hbg]; exact hlt)
  have hcardS :
      ((Finset.range (N / Nat.gcd 10 N)).image (fun j => Nat.gcd 10 N * j)).card =
        N / Nat.gcd 10 N := by
    rw [Finset.card_image_of_injOn, Finset.card_range]
    intro j1 _ j2 _ heq
    exact Nat.eq_of_mul_eq_mul_left hg0 heq
  have hTS :
      (Finset.range (N / Nat.gcd 10 N)).image (fun k => (t + k) * 10 % N) =
        (Finset.range (N / Nat.gcd 10 N)).image (fun j => Nat.gcd 10 N * j) :=
    Finset.eq_of_subset_of_card_le hsubset (by rw [hcardT, hcardS])
  -- the multiple of gcd just below i is hit by some tick in the run
  have hmS : Nat.gcd 10 N * (i / Nat.gcd 10 N) ∈
      (Finset.range (N / Nat.gcd 10 N)).image (fun j => Nat.gcd 10 N * j) := by
    simp only [Finset.mem_image, Finset.mem_range]
    exact ⟨i / Nat.gcd 10 N, (Nat.div_lt_iff_lt_mul hg0).mpr (by rw [hbg]; exact hi), rfl⟩
  rw [← hTS] at hmS
  simp only [Finset.mem_image, Finset.mem_range] at hmS
  obtain ⟨k, hkb, hkm⟩ := hmS
  refine ⟨k, hkb, ?_⟩
  have h1 : Nat.gcd 10 N * (i / Nat.gcd 10 N) ≤ i := by
    rw [Nat.mul_comm]
    exact Nat.div_mul_le_self i (Nat.gcd 10 N)
  have h2 : i < Nat.gcd 10 N * (i / Nat.gcd 10 N) + Nat.gcd 10 N := by
    have hdm := Nat.div_add_mod i (Nat.gcd 10 N)
    have hml := Nat.mod_lt i hg0
    omega
  have hgle : Nat.gcd 10 N ≤ 10 := Nat.le_of_dvd (by norm_num) hg10
  simp only [windowContains, batchWindow, Bool.and_eq_true, decide_eq_true_eq]
  rw [hkm]
  exact ⟨h1, Nat.lt_min.mpr ⟨by omega, hi⟩⟩

/-- Witness for the amended claim C1: with 25 agents, index 0 and start tick 1
there is a full update within `25 / gcd(10, 25) = 5` ticks. -/
theorem C1_batch_fairness_witness :
    20 < 25 ∧ 0 < 25 ∧
    ∃ k, k < 25 / Nat.gcd 10 25 ∧ windowContains 25 (1 + k) 0 = true :=
  ⟨by decide, by decide, C1_batch_fairness 25 1 0 (by decide) (by decide)⟩

/-! ## Claim C7 — self-adaptive mutation-rate bound -/

/-- The per-weight loop of self-adaptive mutation only writes the new
genome's weights: on a two-object store it keeps the first object, preserves
the weight-vector length of the second and never touches its mutation rate. -/
theorem saFold_shape (d n : ℕ → ℚ) (g0 : Genome) (l : List ℕ) :
    ∀ x : Genome,
    ∃ x', List.foldl (saWeightStep d n 1) [g0, x] l = [g0, x'] ∧
      x'.weights.length = x.weights.length ∧ x'.mutationRate = x.mutationRate := by
  induction l with
  | nil => intro x; exact ⟨x, rfl, rfl, rfl⟩
  | cons i rest ih =>
      intro x
      simp only [List.foldl_cons]
      have hstep : saWeightStep d n 1 [g0, x] i =
          if d i < x.mutationRate then
            [g0, { x with weights := x.weights.set i (x.weights.getD i 0 + n i * 0.2) }]
          else [g0, x] := by
        simp [saWeightStep, heapGet, heapSet]
      rw [hstep]
      by_cases hd : d i < x.mutationRate
      · rw [if_pos hd]
        obtain ⟨x', hfold, hlen, hrate⟩ :=
          ih { x with weights := x.weights.set i (x.weights.getD i 0 + n i * 0.2) }
        refine ⟨x', hfold, ?_, hrate⟩
        simpa using hlen
      · rw [if_neg hd]
        exact ih x

/-- Characterization of self-adaptive `mutate`: the result's mutation rate is
the (possibly clamped-perturbed) input rate, and the weight-vector length is
preserved. -/
theorem mutateSAV_spec (r10 u : ℚ) (d n : ℕ → ℚ) (g : Genome) :
    (mutateSAV r10 u d n g).mutationRate =
      (if r10 < 0.1 then
        max 0.001 (min 0.3 (g.mutationRate + (u * 2 - 1) * 0.5 * g.mutationRate))
      else g.mutationRate) ∧
    (mutateSAV r10 u d n g).weights.length = g.weights.length := by
  by_cases h10 : r10 < 0.1
  · have hmid : mutateSAV r10 u d n g =
        heapGet (List.foldl (saWeightStep d n 1)
          [g, { g.copy with
            mutationRate := max 0.001 (min 0.3 (g.mutationRate + (u * 2 - 1) * 0.5 * g.mutationRate)) }]
          (List.range ({ g.copy with
            mutationRate := max 0.001 (min 0.3 (g.mutationRate + (u * 2 - 1) * 0.5 * g.mutationRate)) } :
              Genome).weights.length)) 1 := by
      simp [mutateSAV, mutateSAOp, alloc, heapGet, heapSet, h10]
    obtain ⟨x', hfold, hlen, hrate⟩ := saFold_shape d n g _
      { g.copy with
        mutationRate := max 0.001 (min 0.3 (g.mutationRate + (u * 2 - 1) * 0.5 * g.mutationRate)) }
    rw [hmid, hfold]
    have hx : heapGet [g, x'] 1 = x' := rfl
    rw [hx, if_pos h10]
    exact ⟨hrate, by simpa [Genome.copy] using hlen⟩
  · have hmid : mutateSAV r10 u d n g =
        heapGet (List.foldl (saWeightStep d n 1)
          [g, g.copy] (List.range g.copy.weights.length)) 1 := by
      simp [mutateSAV, mutateSAOp, alloc, heapGet, heapSet, h10]
    obtain ⟨x', hfold, hlen, hrate⟩ := saFold_shape d n g _ g.copy
    rw [hmid, hfold]
    have hx : heapGet [g, x'] 1 = x' := rfl
    rw [hx, if_neg h10]
    exact ⟨hrate, by simpa [Genome.copy] using hlen⟩

/-- One self-adaptive mutation keeps the rate inside `[0.001, 0.3]`. -/
theorem mutateSAV_rate_mem (r10 u : ℚ) (d n : ℕ → ℚ) (g : Genome)
    (h1 : 0.001 ≤ g.mutationRate) (h2 : g.mutationRate ≤ 0.3) :
    0.001 ≤ (mutateSAV r10 u d n g).mutationRate ∧
      (mutateSAV r10 u d n g).mutationRate ≤ 0.3 := by
  rw [(mutateSAV_spec r10 u d n g).1]
  split_ifs
  · exact ⟨le_max_left _ _, max_le (by norm_num) (min_le_left _ _)⟩
  · exact ⟨h1, h2⟩

/-- Claim C7: starting from a mutation rate in `[0.001, 0.3]`, both a single
self-adaptive mutation and any finite sequence of them keep the rate in
`[0.001, 0.3]`. -/
theorem C7_mutation_rate_bound (g : Genome) (r10 u : ℚ) (d n : ℕ → ℚ) (l : List MutDraws)
    (h1 : 0.001 ≤ g.mutationRate) (h2 : g.mutationRate ≤ 0.3) :
    (0.001 ≤ (mutateSAV r10 u d n g).mutationRate ∧
      (mutateSAV r10 u d n g).mutationRate ≤ 0.3) ∧
    (0.001 ≤ (mutateSeq g l).mutationRate ∧ (mutateSeq g l).mutationRate ≤ 0.3) := by
  refine ⟨mutateSAV_rate_mem r10 u d n g h1 h2, ?_⟩
  induction l generalizing g with
  | nil => exact ⟨h1, h2⟩
  | cons m rest ih =>
      simp only [mutateSeq, List.foldl_cons]
      have hm := mutateSAV_rate_mem m.r10 m.u m.d m.n g h1 h2
      exact ih _ hm.1 hm.2

/-- Witness for claim C7 at a concrete genome and draw sequence. -/
theorem C7_mutation_rate_bound_witness :
    ((0.001 : ℚ) ≤ (0.05 : ℚ) ∧ (0.05 : ℚ) ≤ (0.3 : ℚ)) ∧
    ((0.001 ≤ (mutateSAV 0 0 (fun _ => 0) (fun _ => 1) ⟨[1], 0.05⟩).mutationRate ∧
      (mutateSAV 0 0 (fun _ => 0) (fun _ => 1) ⟨[1], 0.05⟩).mutationRate ≤ 0.3) ∧
    (0.001 ≤ (mutateSeq ⟨[1], 0.05⟩ [⟨0, 0, fun _ => 0, fun _ => 1⟩]).mutationRate ∧
      (mutateSeq ⟨[1], 0.05⟩ [⟨0, 0, fun _ => 0, fun _ => 1⟩]).mutationRate ≤ 0.3)) :=
  ⟨⟨by norm_num, by norm_num⟩,
    C7_mutation_rate_bound ⟨[1], 0.05⟩ 0 0 (fun _ => 0) (fun _ => 1)
      [⟨0, 0, fun _ => 0, fun _ => 1⟩] (by norm_num) (by norm_num)⟩

/-! ## Claim C10 — genetic operators do not modify their inputs -/

/-- A fold whose steps only write at index `c` preserves every other index. -/
theorem foldl_frame_store (c r : ℕ) (hrc : r ≠ c) (f : Store → ℕ → Store)
    (hf : ∀ st i, f st i = st ∨ ∃ v, f st i = heapSet st c v) (l : List ℕ) :
    ∀ st, heapGet (List.foldl f st l) r = heapGet st r := by
  induction l with
  | nil => intro st; rfl
  | cons i rest ih =>
      intro st
      simp only [List.foldl_cons]
      rw [ih (f st i)]
      rcases hf st i with hid | ⟨v, hv⟩
      · rw [hid]
      · rw [hv]
        exact heapGet_heapSet_ne st c r v hrc

/-- Pair-state version of `foldl_frame_store` for the MULTI_POINT loop. -/
theorem foldl_frame_pair (c r : ℕ) (hrc : r ≠ c) (f : Store × ℕ → ℕ → Store × ℕ)
    (hf : ∀ st i, ∃ v, (f st i).1 = heapSet st.1 c v) (l : List ℕ) :
    ∀ st, heapGet (List.foldl f st l).1 r = heapGet st.1 r := by
  induction l with
  | nil => intro st; rfl
  | cons i rest ih =>
      intro st
      simp only [List.foldl_cons]
      rw [ih (f st i)]
      obtain ⟨v, hv⟩ := hf st i
      rw [hv]
      exact heapGet_heapSet_ne st.1 c r v hrc

theorem mutWeightStep_writes (d u : ℕ → ℚ) (rate amount : ℚ) (ng : ℕ) :
    ∀ st i, mutWeightStep d u rate amount ng st i = st ∨
      ∃ v, mutWeightStep d u rate amount ng st i = heapSet st ng v := by
  intro st i
  simp only [mutWeightStep]
  split
  · exact Or.inr ⟨_, rfl⟩
  · exact Or.inl rfl

theorem saWeightStep_writes (d n : ℕ → ℚ) (ng : ℕ) :
    ∀ st i, saWeightStep d n ng st i = st ∨
      ∃ v, saWeightStep d n ng st i = heapSet st ng v := by
  intro st i
  simp only [saWeightStep]
  split
  · exact Or.inr ⟨_, rfl⟩
  · exact Or.inl rfl

theorem multiPointStep_writes (g1 g2 : Genome) (c : ℕ) :
    ∀ st point, ∃ v, (multiPointStep g1 g2 c st point).1 = heapSet st.1 c v := by
  intro st point
  simp only [multiPointStep]
  split
  · exact ⟨_, rfl⟩
  · exact ⟨_, rfl⟩

/-- Claim C10: after any call to operator-level `mutate`, self-adaptive
`mutate` or `crossover` (any strategy), every genome already in the store —
in particular each argument genome — is exactly as before the call; the
operators only create and write a fresh genome at the next free reference. -/
theorem C10_operators_pure (d u coins rs mn : ℕ → ℚ) (rate amount r0 r10 mu : ℚ)
    (ty : CrossoverType) (s : Store) (g p1 p2 r : ℕ) (h : r < s.length) :
    (heapGet (mutateOp d u rate amount s g).1 r = heapGet s r ∧
      (mutateOp d u rate amount s g).2 = s.length) ∧
    (heapGet (mutateSAOp r10 mu d mn s g).1 r = heapGet s r ∧
      (mutateSAOp r10 mu d mn s g).2 = s.length) ∧
    (∀ s' c, crossoverOp coins r0 rs ty s p1 p2 = some (s', c) →
      heapGet s' r = heapGet s r ∧ c = s.length) := by
  have hne : r ≠ s.length := Nat.ne_of_lt h
  refine ⟨⟨?_, rfl⟩, ⟨?_, rfl⟩, ?_⟩
  · show heapGet (List.foldl (mutWeightStep d u rate amount s.length) _ _) r = heapGet s r
    rw [foldl_frame_store s.length r hne _ (mutWeightStep_writes d u rate amount s.length)]
    exact heapGet_append_lt s _ r h
  · show heapGet (List.foldl (saWeightStep d mn s.length) _ _) r = heapGet s r
    rw [foldl_frame_store s.length r hne _ (saWeightStep_writes d mn s.length)]
    split
    · rw [heapGet_heapSet_ne _ _ _ _ hne]
      exact heapGet_append_lt s _ r h
    · exact heapGet_append_lt s _ r h
  · intro s' c hc
    unfold crossoverOp at hc
    simp only [alloc] at hc
    split at hc
    · exact absurd hc (by simp)
    · split at hc
      · simp only [Option.some.injEq, Prod.mk.injEq] at hc
        obtain ⟨hs', hcval⟩ := hc
        subst hs' hcval
        refine ⟨?_, rfl⟩
        rw [heapGet_heapSet_ne _ _ _ _ hne]
        exact heapGet_append_lt s _ r h
      · simp only [Option.some.injEq, Prod.mk.injEq] at hc
        obtain ⟨hs', hcval⟩ := hc
        subst hs' hcval
        refine ⟨?_, rfl⟩
        rw [heapGet_heapSet_ne _ _ _ _ hne]
        exact heapGet_append_lt s _ r h
      · simp only [Option.some.injEq, Prod.mk.injEq] at hc
        obtain ⟨hs', hcval⟩ := hc
        subst hs' hcval
        refine ⟨?_, rfl⟩
        rw [foldl_frame_pair s.length r hne _ (multiPointStep_writes _ _ s.length)]
        show heapGet (heapSet _ _ _) r = heapGet s r
        rw [heapGet_heapSet_ne _ _ _ _ hne]
        exact heapGet_append_lt s _ r h

/-- Witness for claim C10 on a concrete two-genome store. -/
theorem C10_operators_pure_witness :
    0 < witStore.length ∧
    heapGet (mutateOp (fun _ => 0) (fun _ => 1) 0.05 0.1 witStore 0).1 0 = heapGet witStore 0 :=
  ⟨by norm_num [witStore],
    (C10_operators_pure (fun _ => 0) (fun _ => 1) (fun _ => 0) (fun _ => 0) (fun _ => 0)
      0.05 0.1 0 1 0 CrossoverType.UNIFORM witStore 0 0 1 0
      (by norm_num [witStore])).1.1⟩

/-! ## Claim C6 — species assignment -/

theorem assignScan_no_match (sq : ℚ → ℚ) (thr : ℚ) (genome : Genome) (agentId : ℕ) :
    ∀ l : List Species,
    (∀ s ∈ l, ∃ d, geneticDistance sq genome s.representative = some d ∧ ¬ d < thr) →
    assignScan sq thr genome agentId l = some none := by
  intro l
  induction l with
  | nil => intro _; rfl
  | cons s rest ih =>
      intro h
      obtain ⟨d, hd, hnd⟩ := h s (List.mem_cons_self s rest)
      simp only [assignScan]
      rw [hd]
      simp only [if_neg hnd]
      rw [ih (fun t ht => h t (List.mem_cons_of_mem s ht))]

theorem assignScan_found (sq : ℚ → ℚ) (thr : ℚ) (genome : Genome) (agentId : ℕ) :
    ∀ (pre : List Species) (s0 : Species) (post : List Species) (d0 : ℚ),
    (∀ s ∈ pre, ∃ d, geneticDistance sq genome s.representative = some d ∧ ¬ d < thr) →
    geneticDistance sq genome s0.representative = some d0 → d0 < thr →
    assignScan sq thr genome agentId (pre ++ s0 :: post) =
      some (some (s0.addMember agentId, pre ++ s0.addMember agentId :: post)) := by
  intro pre
  induction pre with
  | nil =>
      intro s0 post d0 _ hd0 hlt
      simp only [List.nil_append, assignScan]
      rw [hd0]
      simp only [if_pos hlt]
  | cons s pre' ih =>
      intro s0 post d0 hpre hd0 hlt
      obtain ⟨d, hd, hnd⟩ := hpre s (List.mem_cons_self s pre')
      simp only [List.cons_append, assignScan, List.append_eq]
      rw [hd]
      simp only [if_neg hnd]
      rw [ih s0 post d0 (fun t ht => hpre t (List.mem_cons_of_mem s ht)) hd0 hlt]

/-- Claim C6: `assignSpecies` assigns the genome to the first species (in
creation order) whose representative is at distance < 4.0, appending the agent
to its member list; when no representative is within the threshold it creates
a new species whose id is the manager's next (monotonically increased) id,
whose permanent representative is a copy of the genome and whose sole member
is the given agent. -/
theorem C6_species_assignment (sq : ℚ → ℚ) (mgr : SpeciesManager) (genome : Genome)
    (agentId : ℕ) (hthr : mgr.distanceThreshold = 4)
    (hlen : ∀ s ∈ mgr.species, s.representative.weights.length = genome.weights.length) :
    (∀ pre s0 post, mgr.species = pre ++ s0 :: post →
      (∀ s ∈ pre, ∀ d, geneticDistance sq genome s.representative = some d → ¬ d < 4) →
      (∀ d0, geneticDistance sq genome s0.representative = some d0 → d0 < 4) →
      assignSpecies sq mgr genome agentId =
        some (s0.addMember agentId,
          { mgr with species := pre ++ s0.addMember agentId :: post })) ∧
    ((∀ s ∈ mgr.species, ∀ d, geneticDistance sq genome s.representative = some d → ¬ d < 4) →
      assignSpecies sq mgr genome agentId =
        some (mkSpecies mgr.nextSpeciesId genome mgr.currentGeneration agentId,
          { mgr with
            species := mgr.species ++
              [mkSpecies mgr.nextSpeciesId genome mgr.currentGeneration agentId]
            nextSpeciesId := mgr.nextSpeciesId + 1 })) ∧
    (mkSpecies mgr.nextSpeciesId genome mgr.currentGeneration agentId).id =
      mgr.nextSpeciesId ∧
    (mkSpecies mgr.nextSpeciesId genome mgr.currentGeneration agentId).representative =
      genome.copy ∧
    (mkSpecies mgr.nextSpeciesId genome mgr.currentGeneration agentId).members =
      [agentId] := by
  have hsome : ∀ s ∈ mgr.species,
      geneticDistance sq genome s.representative =
        some (sq (((genome.weights.zip s.representative.weights).map
          (fun p => (p.1 - p.2) * (p.1 - p.2))).sum)) := by
    intro s hs
    simp [geneticDistance, hlen s hs]
  refine ⟨?_, ?_, rfl, rfl, rfl⟩
  · intro pre s0 post hsp hpre hs0
    have hs0mem : s0 ∈ mgr.species := by rw [hsp]; simp
    have hd0 := hsome s0 hs0mem
    have hlt := hs0 _ hd0
    have hpre' : ∀ s ∈ pre, ∃ d,
        geneticDistance sq genome s.representative = some d ∧ ¬ d < 4 := by
      intro s hs
      have hmem : s ∈ mgr.species := by rw [hsp]; simp [List.mem_append, hs]
      exact ⟨_, hsome s hmem, hpre s hs _ (hsome s hmem)⟩
    unfold assignSpecies
    rw [hthr, hsp, assignScan_found sq 4 genome agentId pre s0 post _ hpre' hd0 hlt]
  · intro hall
    have hall' : ∀ s ∈ mgr.species, ∃ d,
        geneticDistance sq genome s.representative = some d ∧ ¬ d < 4 :=
      fun s hs => ⟨_, hsome s hs, hall s hs _ (hsome s hs)⟩
    unfold assignSpecies
    rw [hthr, assignScan_no_match sq 4 genome agentId mgr.species hall']

/-- Witness for claim C6: a genome at distance 5 from the first species'
representative and distance 1 from the second is assigned to the second. -/
theorem C6_species_assignment_witness :
    witManager.distanceThreshold = 4 ∧
    assignSpecies mySqrt witManager witGenome 11 =
      some (witSpecies2.addMember 11,
        { witManager with species := [witSpecies1] ++ witSpecies2.addMember 11 :: [] }) :=
  ⟨rfl,
    (C6_species_assignment mySqrt witManager witGenome 11 rfl
      (by decide)).1 [witSpecies1] witSpecies2 [] rfl
      (by
        intro s hs d hd
        simp only [List.mem_singleton] at hs
        subst hs
        norm_num [geneticDistance, witSpecies1, witGenome, mySqrt] at hd
        norm_num [← hd])
      (by
        intro d0 hd0
        norm_num [geneticDistance, witSpecies2, witGenome, mySqrt] at hd0
        norm_num [← hd0])⟩

/-! ## Claim C8 — lineage DAG termination -/

theorem lookup_mem : ∀ (m : AncestryMap) (k : ℕ) (r : AgentAncestry),
    m.lookup k = some r → (k, r) ∈ m := by
  intro m k r h
  induction m with
  | nil => simp [List.lookup] at h
  | cons p rest ih =>
      obtain ⟨a, b⟩ := p
      simp only [List.lookup] at h
      cases hbeq : (k == a) with
      | true =>
          rw [hbeq] at h
          simp only [Option.some.injEq] at h
          subst h
          have : k = a := by simpa using hbeq
          subst this
          exact List.mem_cons_self _ _
      | false =>
          rw [hbeq] at h
          exact List.mem_cons_of_mem _ (ih h)

theorem pathCount_pos (m : AncestryMap) (j : ℕ) : 1 ≤ pathCount m j := by
  rw [pathCount]
  split <;> omega

theorem pathCount_none (m : AncestryMap) (j : ℕ) (h : m.lookup j = none) :
    pathCount m j = 1 := by
  rw [pathCount, h]

theorem pathCount_some (m : AncestryMap) (j : ℕ) (r : AgentAncestry)
    (h : m.lookup j = some r) (hp : ∀ p ∈ r.parentIds, p < j) :
    pathCount m j = 1 + (r.parentIds.map (pathCount m)).sum := by
  rw [pathCount, h]
  have hf : r.parentIds.filter (fun p => p < j) = r.parentIds :=
    List.filter_eq_self.mpr (fun a ha => by simp [hp a ha])
  dsimp only
  rw [List.attach_map_val, hf]

/-- With exactly `queueFuel` units of fuel, the BFS drains its queue
completely (under the parent-ids-decrease invariant). -/
theorem bfs_drain (m : AncestryMap)
    (hinv : ∀ k r, m.lookup k = some r → ∀ p ∈ r.parentIds, p < k) :
    ∀ n queue, queueFuel m queue = n → (bfsAncestors m queue n).2 = [] := by
  intro n
  induction n using Nat.strong_induction_on with
  | _ n ih =>
      intro queue hq
      cases queue with
      | nil =>
          simp only [queueFuel, List.map_nil, List.sum_nil] at hq
          subst hq
          rfl
      | cons p rest =>
          have hp1 : 1 ≤ pathCount m p := pathCount_pos m p
          have hn : n = pathCount m p + (rest.map (pathCount m)).sum := by
            simp only [queueFuel, List.map_cons, List.sum_cons] at hq
            omega
          obtain ⟨n', rfl⟩ : ∃ n', n = n' + 1 := ⟨n - 1, by omega⟩
          cases hl : m.lookup p with
          | none =>
              have hrest : queueFuel m rest = n' := by
                have := pathCount_none m p hl
                simp only [queueFuel]
                omega
              simp only [bfsAncestors, hl]
              exact ih n' (by omega) rest hrest
          | some r =>
              have hpar := hinv p r hl
              have hrest : queueFuel m (rest ++ r.parentIds) = n' := by
                have := pathCount_some m p r hl hpar
                simp only [queueFuel, List.map_append, List.sum_append]
                omega
              have hrec := ih n' (by omega) (rest ++ r.parentIds) hrest
              simp only [bfsAncestors, hl]
              exact hrec

/-- Once the BFS has drained its queue, additional fuel changes nothing. -/
theorem bfs_mono (m : AncestryMap) :
    ∀ (F : ℕ) (queue : List ℕ), (bfsAncestors m queue F).2 = [] →
    ∀ fuel, F ≤ fuel → bfsAncestors m queue fuel = bfsAncestors m queue F := by
  intro F
  induction F with
  | zero =>
      intro queue h fuel _
      cases queue with
      | nil => cases fuel <;> rfl
      | cons p rest => simp [bfsAncestors] at h
  | succ F ih =>
      intro queue h fuel hle
      cases queue with
      | nil =>
          obtain ⟨f, rfl⟩ : ∃ f, fuel = f + 1 := ⟨fuel - 1, by omega⟩
          rfl
      | cons p rest =>
          obtain ⟨f, rfl⟩ : ∃ f, fuel = f + 1 := ⟨fuel - 1, by omega⟩
          cases hl : m.lookup p with
          | none =>
              simp only [bfsAncestors, hl] at h ⊢
              exact ih rest h f (by omega)
          | some r =>
              simp only [bfsAncestors, hl] at h ⊢
              rw [ih (rest ++ r.parentIds) h f (by omega)]

/-- Every record the BFS collects has an id below any bound dominating the
initial queue. -/
theorem bfs_bound (m : AncestryMap) (bound : ℕ)
    (hinv : ∀ k r, m.lookup k = some r → r.id = k ∧ ∀ p ∈ r.parentIds, p < k) :
    ∀ (fuel : ℕ) (queue : List ℕ), (∀ q ∈ queue, q < bound) →
    ∀ r ∈ (bfsAncestors m queue fuel).1, r.id < bound := by
  intro fuel
  induction fuel with
  | zero => intro queue _ r hr; simp [bfsAncestors] at hr
  | succ fuel ih =>
      intro queue hq r hr
      cases queue with
      | nil => simp [bfsAncestors] at hr
      | cons p rest =>
          cases hl : m.lookup p with
          | none =>
              simp only [bfsAncestors, hl] at hr
              exact ih rest (fun q hqm => hq q (List.mem_cons_of_mem p hqm)) r hr
          | some rec0 =>
              obtain ⟨hid, hpar⟩ := hinv p rec0 hl
              simp only [bfsAncestors, hl, List.mem_cons] at hr
              rcases hr with hr | hr
              · subst hr
                rw [hid]
                exact hq p (List.mem_cons_self p rest)
              · refine ih (rest ++ rec0.parentIds) ?_ r hr
                intro q hqm
                rcases List.mem_append.mp hqm with hqm | hqm
                · exact hq q (List.mem_cons_of_mem p hqm)
                · exact lt_trans (hpar q hqm) (hq p (List.mem_cons_self p rest))

/-- Claim C8: under the DAG invariant (each stored record's key equals its id
and its parent ids are strictly smaller), `getAncestors` terminates — its
fuel-indexed unfolding stabilizes at an explicit finite fuel — and every
returned record has an id strictly below the queried id. -/
theorem C8_lineage_termination (t : LineageTracker) (agentId : ℕ)
    (hinv : ∀ pr ∈ t.ancestryRecords, pr.2.id = pr.1 ∧ ∀ p ∈ pr.2.parentIds, p < pr.1) :
    ∃ F, (∀ fuel, F ≤ fuel → getAncestorsFuel t agentId fuel = getAncestorsFuel t agentId F) ∧
      ∀ r ∈ getAncestorsFuel t agentId F, r.id < agentId := by
  have hinv' : ∀ k r, t.ancestryRecords.lookup k = some r →
      r.id = k ∧ ∀ p ∈ r.parentIds, p < k :=
    fun k r h => hinv (k, r) (lookup_mem _ _ _ h)
  have hinvP : ∀ k r, t.ancestryRecords.lookup k = some r → ∀ p ∈ r.parentIds, p < k :=
    fun k r h => (hinv' k r h).2
  cases hl : t.ancestryRecords.lookup agentId with
  | none =>
      refine ⟨0, fun fuel _ => ?_, ?_⟩
      · simp [getAncestorsFuel, hl]
      · simp [getAncestorsFuel, hl, bfsAncestors]
  | some record =>
      refine ⟨queueFuel t.ancestryRecords record.parentIds, ?_, ?_⟩
      · intro fuel hle
        simp only [getAncestorsFuel, hl]
        rw [bfs_mono t.ancestryRecords _ record.parentIds
          (bfs_drain t.ancestryRecords hinvP _ record.parentIds rfl) fuel hle]
      · simp only [getAncestorsFuel, hl]
        exact bfs_bound t.ancestryRecords agentId hinv' _ record.parentIds
          ((hinv' agentId record hl).2)

/-- Witness for claim C8 on a concrete three-record ledger. -/
theorem C8_lineage_termination_witness :
    (∀ pr ∈ witTracker.ancestryRecords, pr.2.id = pr.1 ∧ ∀ p ∈ pr.2.parentIds, p < pr.1) ∧
    (∃ F, (∀ fuel, F ≤ fuel →
        getAncestorsFuel witTracker 3 fuel = getAncestorsFuel witTracker 3 F) ∧
      ∀ r ∈ getAncestorsFuel witTracker 3 F, r.id < 3) :=
  ⟨by decide, C8_lineage_termination witTracker 3 (by decide)⟩

/-! ## Claim C4 — metabolism and death -/

theorem postMoveAgent_preserve (sq : ℚ → ℚ) (cfg : Config) (brain : List ℚ → ℚ × ℚ × ℚ)
    (rand : ℚ) (a : Agent) (foods : List Food) (obstacles : List Obstacle) (mult : ℚ) :
    (postMoveAgent sq cfg brain rand a foods obstacles mult).energy = a.energy ∧
    (postMoveAgent sq cfg brain rand a foods obstacles mult).dead = a.dead ∧
    (postMoveAgent sq cfg brain rand a foods obstacles mult).size = a.size ∧
    (postMoveAgent sq cfg brain rand a foods obstacles mult).age = a.age := by
  simp [postMoveAgent, updatePhysics, applyOutputs]

/-- When no food is within precise consumption range of the (stationary
through this loop) agent position, the consumption walk changes nothing. -/
theorem checkFood_id (sq : ℚ → ℚ) (cfg : Config) (a : Agent) :
    ∀ foods : List Food,
    (∀ f ∈ foods, ¬ distanceBetween sq a.position f.position < a.size + f.size) →
    checkFoodConsumption sq cfg a foods = (a, foods) := by
  intro foods
  induction foods with
  | nil => intro _; rfl
  | cons f rest ih =>
      intro h
      have hf := h f (List.mem_cons_self f rest)
      rw [checkFoodConsumption, if_neg (fun hc => hf hc.2.2),
        ih (fun g hg => h g (List.mem_cons_of_mem f hg))]

/-- When no obstacle is within collision range of the agent position, the
collision fold changes nothing. -/
theorem checkObstacles_id (sq : ℚ → ℚ) (a : Agent) :
    ∀ obstacles : List Obstacle,
    (∀ ob ∈ obstacles, ¬ distanceBetween sq a.position ob.position < a.size + ob.size) →
    checkObstacleCollisions sq a obstacles = a := by
  intro obstacles
  induction obstacles with
  | nil => intro _; rfl
  | cons ob rest ih =>
      intro h
      have hob := h ob (List.mem_cons_self ob rest)
      have hstep : collideStep sq a ob = a := by
        rw [collideStep, if_neg hob]
      rw [checkObstacleCollisions, List.foldl_cons, hstep]
      exact ih (fun o ho => h o (List.mem_cons_of_mem ob ho))

/-- Claim C4, amended: on a full-update tick in which the agent consumes no
food **and suffers no obstacle collision**, the energy after the tick equals
the energy before minus `baseRate × metabolismMultiplier`, and the agent is
marked dead iff that resulting energy is ≤ 0 (a dead-marked agent skips the
rest of the tick).  Without the no-collision proviso the original claim fails:
each collision drains 5 further energy units and death is not re-checked. -/
theorem C4_metabolism_death (sq : ℚ → ℚ) (cfg : Config) (brain : List ℚ → ℚ × ℚ × ℚ)
    (rand : ℚ) (a : Agent) (foods : List Food) (obstacles : List Obstacle) (mult : ℚ)
    (hdead : a.dead = false)
    (hfood : ∀ f ∈ foods, ¬ distanceBetween sq
      (postMoveAgent sq cfg brain rand (metabolizedAgent cfg a) foods obstacles mult).position
      f.position <
      (postMoveAgent sq cfg brain rand (metabolizedAgent cfg a) foods obstacles mult).size +
        f.size)
    (hobs : ∀ ob ∈ obstacles, ¬ distanceBetween sq
      (postMoveAgent sq cfg brain rand (metabolizedAgent cfg a) foods obstacles mult).position
      ob.position <
      (postMoveAgent sq cfg brain rand (metabolizedAgent cfg a) foods obstacles mult).size +
        ob.size) :
    ((agentUpdate sq cfg brain rand a foods obstacles mult).1.energy =
      a.energy - cfg.agentMetabolismRate * a.metabolismMultiplier) ∧
    ((agentUpdate sq cfg brain rand a foods obstacles mult).1.dead = true ↔
      a.energy - cfg.agentMetabolismRate * a.metabolismMultiplier ≤ 0) ∧
    (agentUpdate sq cfg brain rand a foods obstacles mult).2 = foods := by
  have hmE : (metabolizedAgent cfg a).energy =
      a.energy - cfg.agentMetabolismRate * a.metabolismMultiplier := rfl
  by_cases hcase : (metabolizedAgent cfg a).energy ≤ 0
  · have h1 : agentUpdate sq cfg brain rand a foods obstacles mult =
        ({ metabolizedAgent cfg a with dead := true }, foods) := by
      rw [agentUpdate, if_pos hcase]
    rw [h1]
    refine ⟨hmE, ?_, rfl⟩
    rw [hmE] at hcase
    simpa using hcase
  · have hpres := postMoveAgent_preserve sq cfg brain rand (metabolizedAgent cfg a)
      foods obstacles mult
    have h1 : agentUpdate sq cfg brain rand a foods obstacles mult =
        ({ postMoveAgent sq cfg brain rand (metabolizedAgent cfg a) foods obstacles mult with
            fitness :=
              ((postMoveAgent sq cfg brain rand (metabolizedAgent cfg a)
                foods obstacles mult).age : ℚ) +
              (postMoveAgent sq cfg brain rand (metabolizedAgent cfg a)
                foods obstacles mult).energy }, foods) := by
      rw [agentUpdate, if_neg hcase]
      simp only []
      rw [checkFood_id sq cfg _ foods hfood]
      simp only []
      rw [checkObstacles_id sq _ obstacles hobs]
    rw [h1]
    have hdead2 : (postMoveAgent sq cfg brain rand (metabolizedAgent cfg a)
        foods obstacles mult).dead = false := by
      rw [hpres.2.1]
      exact hdead
    refine ⟨?_, ?_, rfl⟩
    · show (postMoveAgent sq cfg brain rand (metabolizedAgent cfg a)
        foods obstacles mult).energy = _
      rw [hpres.1, hmE]
    · show ((postMoveAgent sq cfg brain rand (metabolizedAgent cfg a)
        foods obstacles mult).dead = true) ↔ _
      rw [hdead2, ← hmE]
      simp [hcase]

/-- Claim C4 counterexample: with no food at all but one overlapping obstacle,
the concrete agent's energy after a full update is `4.5 − 0.1 − 5 = −0.6`, not
`4.5 − 0.1`, and the agent is not marked dead although its resulting energy is
≤ 0. -/
theorem C4_metabolism_death_cex :
    (agentUpdate mySqrt config myBrain 0 collideCexAgent [] [collideCexObstacle] 1).1.energy ≠
      collideCexAgent.energy - config.agentMetabolismRate * collideCexAgent.metabolismMultiplier ∧
    ¬ ((agentUpdate mySqrt config myBrain 0 collideCexAgent [] [collideCexObstacle] 1).1.dead =
          true ↔
      (agentUpdate mySqrt config myBrain 0 collideCexAgent [] [collideCexObstacle] 1).1.energy
        ≤ 0) := by
  norm_num [agentUpdate, metabolizedAgent, postMoveAgent, getSensoryInputs, applyOutputs,
    updatePhysics, integratedPosition, physVelocity, limitVector, magnitudeVector,
    normalizeVector, addVectors, subtractVectors, multiplyVector, divideVector,
    distanceBetween, wrapCoord, checkFoodConsumption, checkObstacleCollisions, collideStep,
    closestBy, myBrain, mySqrt, config, collideCexAgent, collideCexObstacle]

/-- Witness for the amended claim C4 at a concrete agent with no food and no
obstacles present. -/
theorem C4_metabolism_death_witness :
    wrapCexAgent.dead = false ∧
    (((agentUpdate mySqrt config myBrain 0 wrapCexAgent [] [] 1).1.energy =
      wrapCexAgent.energy - config.agentMetabolismRate * wrapCexAgent.metabolismMultiplier) ∧
    ((agentUpdate mySqrt config myBrain 0 wrapCexAgent [] [] 1).1.dead = true ↔
      wrapCexAgent.energy - config.agentMetabolismRate * wrapCexAgent.metabolismMultiplier ≤ 0) ∧
    (agentUpdate mySqrt config myBrain 0 wrapCexAgent [] [] 1).2 = []) :=
  ⟨rfl,
    C4_metabolism_death mySqrt config myBrain 0 wrapCexAgent [] [] 1 rfl
      (by simp) (by simp)⟩

/-! ## Claim C5 — reproduction -/

theorem overwriteFrom_length (cur src : List ℚ) (point : ℕ) (h : cur.length = src.length) :
    (overwriteFrom cur src point).length = cur.length := by
  simp only [overwriteFrom, List.length_append, List.length_take, List.length_drop]
  omega

/-- The MULTI_POINT loop keeps the two parents in place and preserves the
child's weight-vector length. -/
theorem mpFold_shape (g1 g2 : Genome) (hlen : g1.weights.length = g2.weights.length) :
    ∀ (points : List ℕ) (x : Genome) (par : ℕ), x.weights.length = g1.weights.length →
    ∃ x' par',
      List.foldl (multiPointStep g1 g2 2) ([g1, g2, x], par) points = ([g1, g2, x'], par') ∧
      x'.weights.length = g1.weights.length := by
  intro points
  induction points with
  | nil => intro x par hx; exact ⟨x, par, rfl, hx⟩
  | cons point rest ih =>
      intro x par hx
      simp only [List.foldl_cons]
      have hget : heapGet [g1, g2, x] 2 = x := rfl
      by_cases hpar : par = 2
      · have hstep : multiPointStep g1 g2 2 ([g1, g2, x], par) point =
            ([g1, g2, { x with weights := overwriteFrom x.weights g2.weights point }], 1) := by
          simp [multiPointStep, hpar, heapGet, heapSet]
        rw [hstep]
        exact ih _ 1 (by rw [← hx]; exact overwriteFrom_length _ _ _ (by omega))
      · have hstep : multiPointStep g1 g2 2 ([g1, g2, x], par) point =
            ([g1, g2, { x with weights := overwriteFrom x.weights g1.weights point }], 2) := by
          simp [multiPointStep, hpar, heapGet, heapSet]
        rw [hstep]
        exact ih _ 2 (by rw [← hx]; exact overwriteFrom_length _ _ _ (by omega))

/-- With equal-length parents, `crossover` succeeds for every strategy and
returns a child of the same weight-vector length. -/
theorem crossoverV_some (coins : ℕ → ℚ) (r0 : ℚ) (rs : ℕ → ℚ) (ty : CrossoverType)
    (g1 g2 : Genome) (hlen : g1.weights.length = g2.weights.length) :
    ∃ cg, crossoverV coins r0 rs ty g1 g2 = some cg ∧
      cg.weights.length = g1.weights.length := by
  cases ty with
  | UNIFORM =>
      refine ⟨⟨(List.range g1.weights.length).map
          (fun i => if coins i < 0.5 then g1.weights.getD i 0 else g2.weights.getD i 0),
          0.05⟩, ?_, ?_⟩
      · simp [crossoverV, crossoverOp, alloc, hlen, heapGet, heapSet]
      · simp
  | SINGLE_POINT =>
      refine ⟨⟨g1.weights.take (r0 * g1.weights.length).floor.toNat ++
          g2.weights.drop (r0 * g1.weights.length).floor.toNat, 0.05⟩, ?_, ?_⟩
      · simp [crossoverV, crossoverOp, alloc, hlen, heapGet, heapSet]
      · simp only [List.length_append, List.length_take, List.length_drop]
        omega
  | MULTI_POINT =>
      obtain ⟨x', par', hfold, hxlen⟩ := mpFold_shape g1 g2 hlen
        ((((List.range ((r0 * 3).floor.toNat + 2)).map
          (fun i => (rs i * g1.weights.length).floor.toNat)).mergeSort
            (fun a b => decide (a ≤ b))))
        ⟨g1.weights, 0.05⟩ 2 rfl
      refine ⟨x', ?_, hxlen⟩
      have hstore : crossoverV coins r0 rs CrossoverType.MULTI_POINT g1 g2 =
          some (heapGet (List.foldl (multiPointStep g1 g2 2)
            ([g1, g2, ⟨g1.weights, 0.05⟩], 2)
            ((((List.range ((r0 * 3).floor.toNat + 2)).map
              (fun i => (rs i * g1.weights.length).floor.toNat)).mergeSort
                (fun a b => decide (a ≤ b))))).1 2) := by
        simp [crossoverV, crossoverOp, alloc, hlen, heapGet, heapSet]
      rw [hstore, hfold]
      rfl

/-- The per-weight loop of the operator-level `mutate` on a two-object store
keeps the first object and preserves the second object's weight-vector length
and mutation rate. -/
theorem mutFold_shape (d u : ℕ → ℚ) (rate amount : ℚ) (g0 : Genome) (l : List ℕ) :
    ∀ x : Genome,
    ∃ x', List.foldl (mutWeightStep d u rate amount 1) [g0, x] l = [g0, x'] ∧
      x'.weights.length = x.weights.length ∧ x'.mutationRate = x.mutationRate := by
  induction l with
  | nil => intro x; exact ⟨x, rfl, rfl, rfl⟩
  | cons i rest ih =>
      intro x
      simp only [List.foldl_cons]
      have hstep : mutWeightStep d u rate amount 1 [g0, x] i =
          if d i < rate then
            [g0, { x with
              weights := x.weights.set i (x.weights.getD i 0 + (u i * 2 - 1) * amount) }]
          else [g0, x] := by
        simp [mutWeightStep, heapGet, heapSet]
      rw [hstep]
      by_cases hd : d i < rate
      · rw [if_pos hd]
        obtain ⟨x', hfold, hlen, hrate⟩ :=
          ih { x with weights := x.weights.set i (x.weights.getD i 0 + (u i * 2 - 1) * amount) }
        refine ⟨x', hfold, ?_, hrate⟩
        simpa using hlen
      · rw [if_neg hd]
        exact ih x

/-- The operator-level `mutate` preserves the mutation rate and the
weight-vector length. -/
theorem mutateV_spec (d u : ℕ → ℚ) (rate amount : ℚ) (g : Genome) :
    (mutateV d u rate amount g).mutationRate = g.mutationRate ∧
    (mutateV d u rate amount g).weights.length = g.weights.length := by
  have hmid : mutateV d u rate amount g =
      heapGet (List.foldl (mutWeightStep d u rate amount 1)
        [g, g.copy] (List.range g.copy.weights.length)) 1 := by
    simp [mutateV, mutateOp, alloc, heapGet, heapSet]
  obtain ⟨x', hfold, hlen, hrate⟩ := mutFold_shape d u rate amount g _ g.copy
  rw [hmid, hfold]
  have hx : heapGet [g, x'] 1 = x' := rfl
  rw [hx]
  exact ⟨hrate, by simpa [Genome.copy] using hlen⟩

/-- With well-formed genomes the pre-mutation child genome always exists and
has the architecture's length. -/
theorem reproPreGenome_some (cfg : Config) (gen : ℕ) (dr : ReproDraws) (self : Agent)
    (partner : Option Agent)
    (h1 : self.genome.weights.length = expectedWeights cfg)
    (h2 : ∀ p, partner = some p → p.genome.weights.length = expectedWeights cfg) :
    ∃ pre, reproPreGenome cfg gen dr self partner = some pre ∧
      pre.weights.length = expectedWeights cfg := by
  cases partner with
  | none => exact ⟨self.genome.copy, rfl, h1⟩
  | some p =>
      by_cases hcan : canReproduce cfg p = true
      · obtain ⟨cg, hcg, hcglen⟩ := crossoverV_some dr.coins dr.cross0 dr.crossRs
          (crossoverTypeFor gen) self.genome p.genome (h1.trans (h2 p rfl).symm)
        refine ⟨{ cg with
          mutationRate := (self.genome.mutationRate + p.genome.mutationRate) / 2 }, ?_, ?_⟩
        · simp [reproPreGenome, hcan, hcg]
        · show cg.weights.length = _
          rw [hcglen, h1]
      · refine ⟨self.genome.copy, ?_, h1⟩
        simp [reproPreGenome, hcan]

/-- Explicit form of a successful `reproduce` call. -/
theorem reproduce_some_form (cfg : Config) (gen : ℕ) (dr : ReproDraws) (self : Agent)
    (partner : Option Agent) (pre : Genome)
    (hpre : reproPreGenome cfg gen dr self partner = some pre) :
    reproduce cfg gen dr self partner = some
      { parent := { self with energy := self.energy / 2 }
        partner := partner.map
          (fun p => if canReproduce cfg p then { p with energy := p.energy / 2 } else p)
        child := { mkAgent cfg dr.rndGenome
            (addVectors self.position ⟨dr.offX * 20 - 10, dr.offY * 20 - 10⟩)
            (mutateV dr.mutD dr.mutU cfg.mutationRate cfg.mutationAmount pre) with
          parentIds := match partner with
            | some p => [self.id, p.id]
            | none => [self.id] } } := by
  unfold reproduce
  rw [hpre]
  cases partner <;> rfl

/-- A `reproduce` call whose crossover throws propagates the failure. -/
theorem reproduce_none_form (cfg : Config) (gen : ℕ) (dr : ReproDraws) (self : Agent)
    (partner : Option Agent)
    (hpre : reproPreGenome cfg gen dr self partner = none) :
    reproduce cfg gen dr self partner = none := by
  unfold reproduce
  rw [hpre]

/-- Claim C5, amended: `reproduce` always halves the invoking agent's energy;
when a partner is provided **and that partner is itself able to reproduce**
(energy above the threshold), the partner's energy is halved, the child's
pre-mutation genome is the crossover of the two parents with the strategy
selected by the current generation (uniform below 5, single-point below 15,
multi-point after) and its pre-mutation mutation rate is the parents' average;
with no partner — or a provided partner that cannot reproduce — the child's
pre-mutation genome is a copy of the invoking agent's genome and the partner
is left untouched. -/
theorem C5_reproduction (cfg : Config) (gen : ℕ) (dr : ReproDraws) (self p : Agent)
    (hlen1 : self.genome.weights.length = expectedWeights cfg)
    (hlen2 : p.genome.weights.length = expectedWeights cfg) :
    (∀ partner res, reproduce cfg gen dr self partner = some res →
      res.parent.energy = self.energy / 2) ∧
    (canReproduce cfg p = true →
      ∃ cg res, crossoverV dr.coins dr.cross0 dr.crossRs (crossoverTypeFor gen)
          self.genome p.genome = some cg ∧
        reproPreGenome cfg gen dr self (some p) =
          some { cg with
            mutationRate := (self.genome.mutationRate + p.genome.mutationRate) / 2 } ∧
        reproduce cfg gen dr self (some p) = some res ∧
        res.partner = some { p with energy := p.energy / 2 } ∧
        res.child.genome = mutateV dr.mutD dr.mutU cfg.mutationRate cfg.mutationAmount
          { cg with
            mutationRate := (self.genome.mutationRate + p.genome.mutationRate) / 2 }) ∧
    (canReproduce cfg p = false →
      reproPreGenome cfg gen dr self (some p) = some self.genome.copy ∧
      ∀ res, reproduce cfg gen dr self (some p) = some res → res.partner = some p) ∧
    (reproPreGenome cfg gen dr self none = some self.genome.copy ∧
      ∀ res, reproduce cfg gen dr self none = some res →
        res.child.genome = mutateV dr.mutD dr.mutU cfg.mutationRate cfg.mutationAmount self.genome.copy) ∧
    ((gen < 5 → crossoverTypeFor gen = CrossoverType.UNIFORM) ∧
     (¬ gen < 5 → gen < 15 → crossoverTypeFor gen = CrossoverType.SINGLE_POINT) ∧
     (¬ gen < 15 → crossoverTypeFor gen = CrossoverType.MULTI_POINT)) := by
  refine ⟨?_, ?_, ?_, ⟨rfl, ?_⟩, ?_, ?_, ?_⟩
  · intro partner res h
    cases hpre : reproPreGenome cfg gen dr self partner with
    | none => rw [reproduce_none_form cfg gen dr self partner hpre] at h; exact absurd h (by simp)
    | some pre =>
        rw [reproduce_some_form cfg gen dr self partner pre hpre] at h
        simp only [Option.some.injEq] at h
        rw [← h]
  · intro hcan
    obtain ⟨cg, hcg, hcglen⟩ := crossoverV_some dr.coins dr.cross0 dr.crossRs
      (crossoverTypeFor gen) self.genome p.genome (hlen1.trans hlen2.symm)
    have hpre : reproPreGenome cfg gen dr self (some p) =
        some { cg with
          mutationRate := (self.genome.mutationRate + p.genome.mutationRate) / 2 } := by
      simp [reproPreGenome, hcan, hcg]
    refine ⟨cg, _, hcg, hpre, reproduce_some_form cfg gen dr self (some p) _ hpre, ?_, ?_⟩
    · simp [hcan]
    · have hmutlen : (mutateV dr.mutD dr.mutU cfg.mutationRate cfg.mutationAmount
          { cg with
            mutationRate :=
              (self.genome.mutationRate + p.genome.mutationRate) / 2 }).weights.length =
          expectedWeights cfg := by
        rw [(mutateV_spec dr.mutD dr.mutU cfg.mutationRate cfg.mutationAmount _).2]
        show cg.weights.length = _
        rw [hcglen, hlen1]
      simp [mkAgent, hmutlen]
  · intro hcan
    have hpre : reproPreGenome cfg gen dr self (some p) = some self.genome.copy := by
      simp [reproPreGenome, hcan]
    refine ⟨hpre, ?_⟩
    intro res h
    rw [reproduce_some_form cfg gen dr self (some p) _ hpre] at h
    simp only [Option.some.injEq] at h
    rw [← h]
    simp [hcan]
  · intro res h
    rw [reproduce_some_form cfg gen dr self none _ rfl] at h
    simp only [Option.some.injEq] at h
    rw [← h]
    have hmutlen : (mutateV dr.mutD dr.mutU cfg.mutationRate cfg.mutationAmount
        self.genome.copy).weights.length = expectedWeights cfg := by
      rw [(mutateV_spec dr.mutD dr.mutU cfg.mutationRate cfg.mutationAmount _).2]
      show self.genome.weights.length = _
      exact hlen1
    simp [mkAgent, hmutlen]
  · intro h5; rw [crossoverTypeFor, if_pos h5]
  · intro h5 h15; rw [crossoverTypeFor, if_neg h5, if_pos h15]
  · intro h15
    have h5 : ¬ gen < 5 := by omega
    rw [crossoverTypeFor, if_neg h5, if_neg h15]

/-- Claim C5 counterexample: a provided partner whose energy (50) is below
the reproduction threshold (70) is left with its energy unhalved, and the
child's pre-mutation genome is a plain copy of the invoking agent's genome
rather than a crossover. -/
theorem C5_reproduction_cex :
    (reproduce config 1 quietDraws reproCexSelf (some reproCexPartner)).map
        (fun r => r.partner.map (fun q => q.energy)) = some (some 50) ∧
    reproCexPartner.energy = 50 ∧ (50 : ℚ) ≠ 50 / 2 ∧
    reproPreGenome config 1 quietDraws reproCexSelf (some reproCexPartner) =
      some reproCexSelf.genome.copy := by
  have hcan : canReproduce config reproCexPartner = false := by
    norm_num [canReproduce, reproCexPartner, config]
  have hpre : reproPreGenome config 1 quietDraws reproCexSelf (some reproCexPartner) =
      some reproCexSelf.genome.copy := by
    simp [reproPreGenome, hcan]
  refine ⟨?_, rfl, by norm_num, hpre⟩
  rw [reproduce_some_form config 1 quietDraws reproCexSelf (some reproCexPartner) _ hpre]
  simp only [Option.map_some, hcan, Bool.false_eq_true, if_false]
  rfl

/-- Witness for the amended claim C5 at a small concrete architecture with an
eligible partner. -/
theorem C5_reproduction_witness :
    reproWitSelf.genome.weights.length = expectedWeights testConfig ∧
    reproWitPartner.genome.weights.length = expectedWeights testConfig ∧
    canReproduce testConfig reproWitPartner = true ∧
    ((∀ partner res, reproduce testConfig 3 quietDraws reproWitSelf partner = some res →
      res.parent.energy = reproWitSelf.energy / 2) ∧
    (canReproduce testConfig reproWitPartner = true →
      ∃ cg res, crossoverV quietDraws.coins quietDraws.cross0 quietDraws.crossRs
          (crossoverTypeFor 3) reproWitSelf.genome reproWitPartner.genome = some cg ∧
        reproPreGenome testConfig 3 quietDraws reproWitSelf (some reproWitPartner) =
          some { cg with
            mutationRate :=
              (reproWitSelf.genome.mutationRate + reproWitPartner.genome.mutationRate) / 2 } ∧
        reproduce testConfig 3 quietDraws reproWitSelf (some reproWitPartner) = some res ∧
        res.partner = some { reproWitPartner with energy := reproWitPartner.energy / 2 } ∧
        res.child.genome = mutateV quietDraws.mutD quietDraws.mutU
          testConfig.mutationRate testConfig.mutationAmount
          { cg with
            mutationRate :=
              (reproWitSelf.genome.mutationRate + reproWitPartner.genome.mutationRate) / 2 }) ∧
    (canReproduce testConfig reproWitPartner = false →
      reproPreGenome testConfig 3 quietDraws reproWitSelf (some reproWitPartner) =
        some reproWitSelf.genome.copy ∧
      ∀ res, reproduce testConfig 3 quietDraws reproWitSelf (some reproWitPartner) =
          some res → res.partner = some reproWitPartner) ∧
    (reproPreGenome testConfig 3 quietDraws reproWitSelf none =
        some reproWitSelf.genome.copy ∧
      ∀ res, reproduce testConfig 3 quietDraws reproWitSelf none = some res →
        res.child.genome = mutateV quietDraws.mutD quietDraws.mutU
          testConfig.mutationRate testConfig.mutationAmount reproWitSelf.genome.copy) ∧
    ((3 < 5 → crossoverTypeFor 3 = CrossoverType.UNIFORM) ∧
     (¬ 3 < 5 → 3 < 15 → crossoverTypeFor 3 = CrossoverType.SINGLE_POINT) ∧
     (¬ 3 < 15 → crossoverTypeFor 3 = CrossoverType.MULTI_POINT))) :=
  ⟨by decide, by decide, by norm_num [canReproduce, reproWitPartner, testConfig, config],
    C5_reproduction testConfig 3 quietDraws reproWitSelf reproWitPartner
      (by decide) (by decide)⟩

/-! ## Claim C3 — generation sizing -/

theorem eqExceptEnergy_refl (a : Agent) : eqExceptEnergy a a :=
  ⟨rfl, rfl, rfl, rfl, rfl, rfl, rfl, rfl, rfl, rfl, rfl⟩

theorem eqExceptEnergy_energyUpdate (a : Agent) (e : ℚ) :
    eqExceptEnergy a { a with energy := e } :=
  ⟨rfl, rfl, rfl, rfl, rfl, rfl, rfl, rfl, rfl, rfl, rfl⟩

theorem eqExceptEnergy_trans {a b c : Agent} (h1 : eqExceptEnergy a b)
    (h2 : eqExceptEnergy b c) : eqExceptEnergy a c := by
  obtain ⟨e1, e2, e3, e4, e5, e6, e7, e8, e9, e10, e11⟩ := h1
  obtain ⟨f1, f2, f3, f4, f5, f6, f7, f8, f9, f10, f11⟩ := h2
  exact ⟨e1.trans f1, e2.trans f2, e3.trans f3, e4.trans f4, e5.trans f5, e6.trans f6,
    e7.trans f7, e8.trans f8, e9.trans f9, e10.trans f10, e11.trans f11⟩

theorem forall₂_eqEE_refl (l : List Agent) : List.Forall₂ eqExceptEnergy l l :=
  List.forall₂_same.mpr (fun a _ => eqExceptEnergy_refl a)

theorem forall₂_eqEE_trans : ∀ {l1 l2 l3 : List Agent},
    List.Forall₂ eqExceptEnergy l1 l2 → List.Forall₂ eqExceptEnergy l2 l3 →
    List.Forall₂ eqExceptEnergy l1 l3 := by
  intro l1 l2 l3 h1
  induction h1 generalizing l3 with
  | nil => intro h2; cases h2; exact List.Forall₂.nil
  | cons hab _ ih =>
      intro h2
      cases h2 with
      | cons hbc h2' => exact List.Forall₂.cons (eqExceptEnergy_trans hab hbc) (ih h2')

/-- Writing a value that agrees with the overwritten slot except on energy
relates the old and new lists pointwise. -/
theorem forall₂_eqEE_set : ∀ (l : List Agent) (i : ℕ) (v d : Agent),
    eqExceptEnergy (l.getD i d) v → List.Forall₂ eqExceptEnergy l (l.set i v) := by
  intro l
  induction l with
  | nil => intro i v d _; exact List.Forall₂.nil
  | cons x xs ih =>
      intro i v d h
      cases i with
      | zero => exact List.Forall₂.cons h (forall₂_eqEE_refl xs)
      | succ i' => exact List.Forall₂.cons (eqExceptEnergy_refl x) (ih i' v d h)

theorem getD_set_ne (l : List Agent) (i j : ℕ) (v d : Agent) (h : i ≠ j) :
    (l.set i v).getD j d = l.getD j d := by
  simp [List.getD_eq_getElem?_getD, List.getElem?_set, h]

theorem getD_mem_of_lt (l : List Agent) (i : ℕ) (d : Agent) (h : i < l.length) :
    l.getD i d ∈ l := by
  rw [List.getD_eq_getElem?_getD, List.getElem?_eq_getElem h]
  exact List.getElem_mem h

theorem survivorsOf_singleton (a : Agent) : survivorsOf [a] = [a] := by
  have hsort : sortByFitnessDesc [a] = [a] :=
    List.perm_singleton.mp (List.mergeSort_perm [a] _)
  simp [survivorsOf, hsort]

theorem exists_append_of_step (a b : List Agent) (x : Agent) (rest : List Agent)
    (h : b = (a ++ [x]) ++ rest) : ∃ r, b = a ++ r :=
  ⟨[x] ++ rest, by rw [h, List.append_assoc]⟩

/-- One unfolding of the fill loop at a successful `reproduce` call. -/
theorem fillLoop_step (cfg : Config) (gen : ℕ) (dr : GenDraws)
    (survivors children : List Agent) (k : ℕ) (popt : Option Agent) (res : ReproResult)
    (hlt : survivors.length + children.length < cfg.initialAgentCount)
    (hpo : (if (decide (dr.partnerGate k < 0.7) && decide (survivors.length > 1)) = true then
        some (survivors.getD (dr.partnerSel k) dfltAgent)
      else none) = popt)
    (hrep : reproduce cfg gen (dr.repro k)
      (survivors.getD ((dr.parentSel k * (survivors.length : ℚ)).floor.toNat) dfltAgent)
      popt = some res) :
    fillLoop cfg gen dr survivors children k =
      fillLoop cfg gen dr
        (if (decide (dr.partnerGate k < 0.7) && decide (survivors.length > 1)) = true then
          match res.partner with
          | some p' => (survivors.set ((dr.parentSel k * (survivors.length : ℚ)).floor.toNat)
              res.parent).set (dr.partnerSel k) p'
          | none => survivors.set ((dr.parentSel k * (survivors.length : ℚ)).floor.toNat)
              res.parent
        else survivors.set ((dr.parentSel k * (survivors.length : ℚ)).floor.toNat) res.parent)
        (children ++ [{ res.child with id := dr.childId k }]) (k + 1) := by
  rw [fillLoop, dif_pos hlt]
  simp only []
  rw [hpo, hrep]

/-- Loop invariant of the fill loop: it succeeds, preserves the survivor
count, changes survivors at most in their energy, only appends children, and
stops exactly at the configured population size. -/
theorem fillLoop_spec (cfg : Config) (gen : ℕ) (dr : GenDraws) (S : ℕ)
    (hp1 : ∀ j, (dr.parentSel j * (S : ℚ)).floor.toNat < S)
    (hp2 : ∀ j, dr.partnerGate j < 0.7 → 1 < S →
      dr.partnerSel j < S ∧ dr.partnerSel j ≠ (dr.parentSel j * (S : ℚ)).floor.toNat) :
    ∀ (fuel : ℕ) (survivors children : List Agent) (k : ℕ),
    survivors.length = S →
    cfg.initialAgentCount - (survivors.length + children.length) ≤ fuel →
    (∀ a ∈ survivors, a.genome.weights.length = expectedWeights cfg) →
    ∃ survivors' children',
      fillLoop cfg gen dr survivors children k = some (survivors', children') ∧
      survivors'.length = survivors.length ∧
      List.Forall₂ eqExceptEnergy survivors survivors' ∧
      (∃ rest, children' = children ++ rest) ∧
      survivors'.length + children'.length =
        max cfg.initialAgentCount (survivors.length + children.length) := by
  intro fuel
  induction fuel with
  | zero =>
      intro survivors children k _ hf _
      rw [fillLoop, dif_neg (by omega)]
      exact ⟨survivors, children, rfl, rfl, forall₂_eqEE_refl survivors, ⟨[], by simp⟩,
        by omega⟩
  | succ fuel ih =>
      intro survivors children k hS hf hg
      by_cases hlt : survivors.length + children.length < cfg.initialAgentCount
      · have hpl : (dr.parentSel k * (survivors.length : ℚ)).floor.toNat < survivors.length := by
          rw [hS]; exact hp1 k
        have hparentmem : survivors.getD ((dr.parentSel k * (survivors.length : ℚ)).floor.toNat)
            dfltAgent ∈ survivors := getD_mem_of_lt _ _ _ hpl
        have hparentlen := hg _ hparentmem
        have hparentEE : eqExceptEnergy
            (survivors.getD ((dr.parentSel k * (survivors.length : ℚ)).floor.toNat) dfltAgent)
            { survivors.getD ((dr.parentSel k * (survivors.length : ℚ)).floor.toNat) dfltAgent
              with energy := (survivors.getD
                ((dr.parentSel k * (survivors.length : ℚ)).floor.toNat) dfltAgent).energy / 2 } :=
          eqExceptEnergy_energyUpdate _ _
        by_cases hub : dr.partnerGate k < 0.7 ∧ 1 < survivors.length
        · -- partner branch taken
          obtain ⟨hps, hpne⟩ := hp2 k hub.1 (hS ▸ hub.2)
          have hpsl : dr.partnerSel k < survivors.length := by rw [hS]; exact hps
          have hpartnermem : survivors.getD (dr.partnerSel k) dfltAgent ∈ survivors :=
            getD_mem_of_lt _ _ _ hpsl
          have hpartnerlen := hg _ hpartnermem
          obtain ⟨pre, hpre, _⟩ := reproPreGenome_some cfg gen (dr.repro k) _
            (some (survivors.getD (dr.partnerSel k) dfltAgent)) hparentlen
            (fun p hp => by injection hp with h2; rw [← h2]; exact hpartnerlen)
          have hcond : (decide (dr.partnerGate k < 0.7) &&
              decide (survivors.length > 1)) = true := by
            simp [hub.1, hub.2]
          have hrep := reproduce_some_form cfg gen (dr.repro k) _
            (some (survivors.getD (dr.partnerSel k) dfltAgent)) pre hpre
          have hpo : (if (decide (dr.partnerGate k < 0.7) &&
              decide (survivors.length > 1)) = true then
              some (survivors.getD (dr.partnerSel k) dfltAgent)
            else none) = some (survivors.getD (dr.partnerSel k) dfltAgent) := by
            rw [hcond]
            simp
          rw [fillLoop_step cfg gen dr survivors children k _ _ hlt hpo hrep]
          rw [hcond, if_pos rfl]
          simp only [Option.map_some]
          set parent := survivors.getD ((dr.parentSel k * (survivors.length : ℚ)).floor.toNat)
            dfltAgent with hparent
          set partner := survivors.getD (dr.partnerSel k) dfltAgent with hpartner
          set p' : Agent := if canReproduce cfg partner = true then
              { partner with energy := partner.energy / 2 } else partner with hp'
          set survivors1 := survivors.set
            ((dr.parentSel k * (survivors.length : ℚ)).floor.toNat)
            { parent with energy := parent.energy / 2 } with hs1
          set survivors2 := survivors1.set (dr.partnerSel k) p' with hs2
          have hS1 : survivors1.length = survivors.length := List.length_set _ _ _
          have hS2 : survivors2.length = survivors.length := by
            rw [hs2, List.length_set, hS1]
          have hg2 : ∀ a ∈ survivors2, a.genome.weights.length = expectedWeights cfg := by
            intro a ha
            rcases List.mem_or_eq_of_mem_set ha with ha1 | ha1
            · rcases List.mem_or_eq_of_mem_set ha1 with ha2 | ha2
              · exact hg a ha2
              · rw [ha2]; exact hparentlen
            · rw [ha1, hp']
              split
              · exact hpartnerlen
              · exact hpartnerlen
          obtain ⟨s', c', heq, hlen', hfa, ⟨rest, hrest⟩, htot⟩ :=
            ih survivors2 (children ++ [_]) (k + 1) (hS2.trans hS)
              (by rw [hS2]; simp only [List.length_append, List.length_cons,
                List.length_nil]; omega) hg2
          refine ⟨s', c', heq, hlen'.trans (hS2.trans hS ▸ hS.symm ▸ rfl), ?_, ?_, ?_⟩
          · have hF1 : List.Forall₂ eqExceptEnergy survivors survivors1 :=
              forall₂_eqEE_set survivors _ _ dfltAgent hparentEE
            have hpne' : (dr.parentSel k * (survivors.length : ℚ)).floor.toNat ≠
                dr.partnerSel k := by
              rw [hS]; exact fun heq2 => hpne heq2.symm
            have hgd : survivors1.getD (dr.partnerSel k) dfltAgent = partner := by
              rw [hs1, getD_set_ne _ _ _ _ dfltAgent hpne']
            have hF2 : List.Forall₂ eqExceptEnergy survivors1 survivors2 := by
              refine forall₂_eqEE_set survivors1 _ _ dfltAgent ?_
              rw [hgd, hp']
              split
              · exact eqExceptEnergy_energyUpdate _ _
              · exact eqExceptEnergy_refl _
            exact forall₂_eqEE_trans hF1 (forall₂_eqEE_trans hF2 hfa)
          · exact exists_append_of_step children c' _ rest hrest
          · rw [htot, hS2]
            simp only [List.length_append, List.length_cons, List.length_nil]
            omega
        · -- asexual branch
          obtain ⟨pre, hpre, _⟩ := reproPreGenome_some cfg gen (dr.repro k) _ none hparentlen
            (fun p hp => by exact absurd hp (by simp))
          have hcond : (decide (dr.partnerGate k < 0.7) &&
              decide (survivors.length > 1)) = false := by
            rcases Decidable.not_and_iff_or_not.mp hub with hc | hc <;> simp [hc]
          have hrep := reproduce_some_form cfg gen (dr.repro k) _ none pre hpre
          have hpo : (if (decide (dr.partnerGate k < 0.7) &&
              decide (survivors.length > 1)) = true then
              some (survivors.getD (dr.partnerSel k) dfltAgent)
            else none) = none := by
            rw [hcond]
            simp only [Bool.false_eq_true, if_false]
          rw [fillLoop_step cfg gen dr survivors children k _ _ hlt hpo hrep]
          rw [hcond]
          simp only [Bool.false_eq_true, if_false]
          set parent := survivors.getD ((dr.parentSel k * (survivors.length : ℚ)).floor.toNat)
            dfltAgent with hparent
          set survivors1 := survivors.set
            ((dr.parentSel k * (survivors.length : ℚ)).floor.toNat)
            { parent with energy := parent.energy / 2 } with hs1
          have hS1 : survivors1.length = survivors.length := List.length_set _ _ _
          have hg1 : ∀ a ∈ survivors1, a.genome.weights.length = expectedWeights cfg := by
            intro a ha
            rcases List.mem_or_eq_of_mem_set ha with ha1 | ha1
            · exact hg a ha1
            · rw [ha1]; exact hparentlen
          obtain ⟨s', c', heq, hlen', hfa, ⟨rest, hrest⟩, htot⟩ :=
            ih survivors1 (children ++ [_]) (k + 1) (hS1.trans hS)
              (by rw [hS1]; simp only [List.length_append, List.length_cons,
                List.length_nil]; omega) hg1
          refine ⟨s', c', heq, hlen'.trans hS1, ?_, ?_, ?_⟩
          · exact forall₂_eqEE_trans
              (forall₂_eqEE_set survivors _ _ dfltAgent hparentEE) hfa
          · exact exists_append_of_step children c' _ rest hrest
          · rw [htot, hS1]
            simp only [List.length_append, List.length_cons, List.length_nil]
            omega
      · rw [fillLoop, dif_neg hlt]
        exact ⟨survivors, children, rfl, rfl, forall₂_eqEE_refl survivors, ⟨[], by simp⟩,
          by omega⟩

/-- Claim C3, amended: after a non-extinction generation transition with old
roster size at most the configured population size, the survivors are the top
`ceil(oldSize/4)` agents by fitness (each survivor's fitness dominates every
non-survivor's); the new roster has exactly the configured population size and
begins with the survivors, each equal to the corresponding original survivor
in every field **except possibly energy**, which `reproduce` halves in place
each time the survivor serves as parent or eligible partner — survivors are
in the new roster, but not value-unchanged. -/
theorem C3_generation_sizing (cfg : Config) (gen : ℕ) (dr : GenDraws) (agents : List Agent)
    (hne : agents ≠ []) (hle : agents.length ≤ cfg.initialAgentCount)
    (hg : ∀ a ∈ agents, a.genome.weights.length = expectedWeights cfg)
    (hp1 : ∀ j, (dr.parentSel j * ((survivorsOf agents).length : ℚ)).floor.toNat <
      (survivorsOf agents).length)
    (hp2 : ∀ j, dr.partnerGate j < 0.7 → 1 < (survivorsOf agents).length →
      dr.partnerSel j < (survivorsOf agents).length ∧
      dr.partnerSel j ≠ (dr.parentSel j * ((survivorsOf agents).length : ℚ)).floor.toNat) :
    ∃ survivors' children,
      newGenerationRoster cfg gen dr agents = some (survivors' ++ children) ∧
      (survivors' ++ children).length = cfg.initialAgentCount ∧
      survivors'.length = (agents.length + 3) / 4 ∧
      List.Forall₂ eqExceptEnergy (survivorsOf agents) survivors' ∧
      (∀ a ∈ survivorsOf agents, a ∈ agents) ∧
      (∀ a ∈ survivorsOf agents, ∀ b ∈ agents, b ∉ survivorsOf agents →
        b.fitness ≤ a.fitness) := by
  have hn1 : 1 ≤ agents.length := List.length_pos.mpr hne
  have hk : (agents.length + 3) / 4 ≤ agents.length := by omega
  have hperm : List.Perm (sortByFitnessDesc agents) agents := List.mergeSort_perm agents _
  have hsortlen : (sortByFitnessDesc agents).length = agents.length := hperm.length_eq
  have hsurvlen : (survivorsOf agents).length = (agents.length + 3) / 4 := by
    simp only [survivorsOf, List.length_take, hsortlen]
    omega
  have hgs : ∀ a ∈ survivorsOf agents, a.genome.weights.length = expectedWeights cfg :=
    fun a ha => hg a (hperm.mem_iff.mp (List.mem_of_mem_take ha))
  obtain ⟨s', c', heq, hlen', hfa, ⟨rest, hrest⟩, htot⟩ :=
    fillLoop_spec cfg gen dr (survivorsOf agents).length hp1 hp2 cfg.initialAgentCount
      (survivorsOf agents) [] 0 rfl (by simp) hgs
  refine ⟨s', c', ?_, ?_, ?_, hfa, ?_, ?_⟩
  · rw [newGenerationRoster, heq]
    rfl
  · simp only [List.length_append]
    rw [htot]
    simp only [List.length_nil]
    omega
  · rw [hlen', hsurvlen]
  · exact fun a ha => hperm.mem_iff.mp (List.mem_of_mem_take ha)
  · intro a ha b hb hbn
    have hsorted : List.Pairwise
        (fun a b => (fun a b => decide (b.fitness ≤ a.fitness)) a b = true)
        (sortByFitnessDesc agents) := by
      apply List.sorted_mergeSort
      · intro a b c h1 h2
        simp only [decide_eq_true_eq] at h1 h2 ⊢
        exact le_trans h2 h1
      · intro a b
        simpa using le_total b.fitness a.fitness
    have hsplit : sortByFitnessDesc agents =
        survivorsOf agents ++ (sortByFitnessDesc agents).drop ((agents.length + 3) / 4) :=
      (List.take_append_drop _ _).symm
    rw [hsplit] at hsorted
    obtain ⟨-, -, hcross⟩ := List.pairwise_append.mp hsorted
    have hbs : b ∈ sortByFitnessDesc agents := hperm.mem_iff.mpr hb
    rw [hsplit] at hbs
    rcases List.mem_append.mp hbs with hbs | hbs
    · exact absurd hbs hbn
    · simpa using hcross a ha b hbs

/-- Claim C3 counterexample: starting from the single survivor with energy 80
(population target 2), the transition produces a roster whose survivor entry
has energy 40 — `reproduce` halved the survivor's energy in place — so the
survivor is not in the new roster unchanged. -/
theorem C3_generation_sizing_cex :
    survivorsOf genCexRoster = [genCexAgent] ∧
    genCexAgent.energy = 80 ∧
    (newGenerationRoster genCexConfig 1 genCexDraws genCexRoster).map
      (fun l => l.map (fun a => a.energy)) = some [40, 50] ∧
    (40 : ℚ) ≠ 80 := by
  have hsurv : survivorsOf genCexRoster = [genCexAgent] := survivorsOf_singleton genCexAgent
  refine ⟨hsurv, rfl, ?_, by norm_num⟩
  have hrep := reproduce_some_form genCexConfig 1 quietDraws genCexAgent none
    genCexAgent.genome.copy rfl
  obtain ⟨C, hCe, hrep'⟩ : ∃ C : Agent, C.energy = 50 ∧
      reproduce genCexConfig 1 quietDraws genCexAgent none =
        some ⟨{ genCexAgent with energy := genCexAgent.energy / 2 }, none, C⟩ := by
    refine ⟨_, ?_, hrep⟩
    norm_num [mkAgent, genCexConfig, testConfig, config]
  have hlt1 : ([genCexAgent] : List Agent).length + ([] : List Agent).length <
      genCexConfig.initialAgentCount := by
    norm_num [genCexConfig, testConfig, config]
  have hpo1 : (if (decide (genCexDraws.partnerGate 0 < 0.7) &&
      decide (([genCexAgent] : List Agent).length > 1)) = true then
      some (([genCexAgent] : List Agent).getD (genCexDraws.partnerSel 0) dfltAgent)
    else none) = none := by
    norm_num [genCexDraws]
  have hidx : ((genCexDraws.parentSel 0 *
      (([genCexAgent] : List Agent).length : ℚ)).floor.toNat) = 0 := by
    norm_num [genCexDraws]
    decide
  have hgetp : ([genCexAgent] : List Agent).getD ((genCexDraws.parentSel 0 *
      (([genCexAgent] : List Agent).length : ℚ)).floor.toNat) dfltAgent = genCexAgent := by
    rw [hidx]
    rfl
  have hrep2 : reproduce genCexConfig 1 (genCexDraws.repro 0)
      (([genCexAgent] : List Agent).getD ((genCexDraws.parentSel 0 *
        (([genCexAgent] : List Agent).length : ℚ)).floor.toNat) dfltAgent) none =
      some ⟨{ genCexAgent with energy := genCexAgent.energy / 2 }, none, C⟩ := by
    rw [hgetp]
    exact hrep'
  have hstep := fillLoop_step genCexConfig 1 genCexDraws [genCexAgent] [] 0 none _
    hlt1 hpo1 hrep2
  have hcondf : (decide (genCexDraws.partnerGate 0 < 0.7) &&
      decide (([genCexAgent] : List Agent).length > 1)) = false := by
    norm_num [genCexDraws]
  rw [hcondf] at hstep
  simp only [Bool.false_eq_true, if_false] at hstep
  rw [hidx] at hstep
  simp only [List.set_cons_zero, List.nil_append] at hstep
  have hdone : fillLoop genCexConfig 1 genCexDraws
      [{ genCexAgent with energy := genCexAgent.energy / 2 }]
      [{ C with id := genCexDraws.childId 0 }] 1 =
      some ([{ genCexAgent with energy := genCexAgent.energy / 2 }],
        [{ C with id := genCexDraws.childId 0 }]) := by
    rw [fillLoop, dif_neg (by norm_num [genCexConfig, testConfig, config])]
  rw [newGenerationRoster, hsurv, hstep, hdone]
  simp only [Option.map_some, List.map_append, List.map_cons, List.map_nil]
  norm_num [genCexAgent, hCe]

/-- Witness for the amended claim C3 on the same concrete transition. -/
theorem C3_generation_sizing_witness :
    genCexRoster ≠ [] ∧ genCexRoster.length ≤ genCexConfig.initialAgentCount ∧
    (∃ survivors' children,
      newGenerationRoster genCexConfig 1 genCexDraws genCexRoster =
        some (survivors' ++ children) ∧
      (survivors' ++ children).length = genCexConfig.initialAgentCount ∧
      survivors'.length = (genCexRoster.length + 3) / 4 ∧
      List.Forall₂ eqExceptEnergy (survivorsOf genCexRoster) survivors' ∧
      (∀ a ∈ survivorsOf genCexRoster, a ∈ genCexRoster) ∧
      (∀ a ∈ survivorsOf genCexRoster, ∀ b ∈ genCexRoster, b ∉ survivorsOf genCexRoster →
        b.fitness ≤ a.fitness)) :=
  ⟨by simp [genCexRoster], by norm_num [genCexRoster, genCexConfig, testConfig, config],
    C3_generation_sizing genCexConfig 1 genCexDraws genCexRoster
      (by simp [genCexRoster])
      (by norm_num [genCexRoster, genCexConfig, testConfig, config])
      (by
        intro a ha
        simp only [genCexRoster, List.mem_singleton] at ha
        subst ha
        rfl)
      (by
        intro j
        rw [show survivorsOf genCexRoster = [genCexAgent] from
          survivorsOf_singleton genCexAgent]
        norm_num [genCexDraws]
        decide)
      (by
        intro j h1 h2
        rw [show survivorsOf genCexRoster = [genCexAgent] from
          survivorsOf_singleton genCexAgent] at h2
        simp at h2)⟩

end EvoSim
